import Mathlib

/-!
Verification development for the browser-use desktop automation repository.

Strings are modelled as lists of characters (`Str`).  The model covers the
ASCII behaviour of Python string primitives (`lower`, `strip`, `split`,
substring tests), which is the range exercised by the command grammar of
`natural-language-processor.py`.  Regular expressions are embedded by a
small backtracking matcher (`reMatch`) with Python `re` semantics for the
construct subset the source uses: literals, character classes, greedy and
lazy repetition, optional parts, ordered alternation, capture groups,
lookahead and the end anchor.  Fuel arguments make every function
structurally recursive, hence computable by the kernel; fuel is always
chosen large enough for the inputs considered.
-/

abbrev Str := List Char

def strL (s : String) : Str := s.toList

/-- Python `str.isspace` over the ASCII range (the whitespace characters
`re` treats as `\s`). -/
def pyIsSpace (c : Char) : Bool :=
  c == ' ' || c == '\t' || c == '\n' || c == '\r' || c == '\x0b' || c == '\x0c'

/-- Python `str.strip()` from the left. -/
def pyStripL (s : Str) : Str := s.dropWhile pyIsSpace

/-- Python `str.strip()` (both sides). -/
def pyStrip (s : Str) : Str := ((pyStripL s).reverse.dropWhile pyIsSpace).reverse

/-- Python `str.lower()` (ASCII range). -/
def lowerStr (s : Str) : Str := s.map Char.toLower

/-- Python substring test `needle in hay`. -/
def containsSub (n : Str) : Str → Bool
  | [] => n.isEmpty
  | c :: t => n.isPrefixOf (c :: t) || containsSub n t

/-- Python `c in s` for a single character. -/
def containsChar (c : Char) (s : Str) : Bool := s.any (fun d => d == c)

/-- Python `str.isdigit()` (ASCII digits). -/
def pyIsDigitStr (s : Str) : Bool := !s.isEmpty && s.all Char.isDigit

/-- Numeric value of a digit string (Python `int(s)`). -/
def digitsToNat (s : Str) : Nat :=
  s.foldl (fun a c => a * 10 + (c.toNat - 48)) 0

def digitChar (d : Nat) : Char := Char.ofNat (48 + d)

/-- Decimal rendering of a natural number (Python `str(n)`); fuel-structural. -/
def natStrGo : Nat → Nat → Str
  | 0, _ => []
  | f + 1, n =>
    if n < 10 then [digitChar n]
    else natStrGo f (n / 10) ++ [digitChar (n % 10)]

def natStr (n : Nat) : Str := natStrGo (n + 1) n

/-- Python `' '.join`. -/
def joinSpace : List Str → Str
  | [] => []
  | [w] => w
  | w :: ws => w ++ ' ' :: joinSpace ws

/-! ## Regular-expression engine -/

/-- The regex construct subset used by `natural-language-processor.py`. -/
inductive RE where
  | eps : RE
  | lit : Str → RE
  | cls : (Char → Bool) → RE
  | seq : RE → RE → RE
  | alt : RE → RE → RE
  | star : RE → RE
  | starL : RE → RE
  | opt : RE → RE
  | grp : Nat → RE → RE
  | look : RE → RE
  | eol : RE

abbrev Groups := List (Nat × Str)

/-- Backtracking matcher in continuation-passing style.  Alternatives are
tried left to right, `star` is greedy, `starL` is lazy, both with full
backtracking through the continuation, exactly as Python `re` behaves on
patterns whose repetition bodies consume at least one character. -/
def reMatch {α : Type} : Nat → RE → Str → Groups → (Str → Groups → Option α) → Option α
  | 0, _, _, _, _ => none
  | fuel + 1, re, s, gs, k =>
    match re with
    | .eps => k s gs
    | .lit l => if l.isPrefixOf s then k (s.drop l.length) gs else none
    | .cls p =>
      match s with
      | [] => none
      | c :: rest => if p c then k rest gs else none
    | .seq a b => reMatch fuel a s gs (fun s1 gs1 => reMatch fuel b s1 gs1 k)
    | .alt a b =>
      match reMatch fuel a s gs k with
      | some r => some r
      | none => reMatch fuel b s gs k
    | .star e =>
      match reMatch fuel e s gs
          (fun s1 gs1 =>
            if s1.length < s.length then reMatch fuel (.star e) s1 gs1 k else none) with
      | some r => some r
      | none => k s gs
    | .starL e =>
      match k s gs with
      | some r => some r
      | none =>
        reMatch fuel e s gs
          (fun s1 gs1 =>
            if s1.length < s.length then reMatch fuel (.starL e) s1 gs1 k else none)
    | .opt e =>
      match reMatch fuel e s gs k with
      | some r => some r
      | none => k s gs
    | .grp i e =>
      reMatch fuel e s gs
        (fun s1 gs1 => k s1 ((i, s.take (s.length - s1.length)) :: gs1))
    | .look e => reMatch fuel e s gs (fun _ _ => k s gs)
    | .eol => if s == [] || s == ['\n'] then k s gs else none

def RE.plus (e : RE) : RE := .seq e (.star e)

def RE.plusL (e : RE) : RE := .seq e (.starL e)

def matchFuel (s : Str) : Nat := 2 * s.length + 100

/-- `re.search`: try the pattern at each start position, leftmost first. -/
def reSearchGo (fuel : Nat) (re : RE) : Str → Option Groups
  | [] => reMatch fuel re [] [] (fun _ gs => some gs)
  | c :: t =>
    match reMatch fuel re (c :: t) [] (fun _ gs => some gs) with
    | some gs => some gs
    | none => reSearchGo fuel re t

def reSearch (re : RE) (s : Str) : Option Groups :=
  reSearchGo (matchFuel s) re s

/-- Length consumed by a separator regex matching at the head of `s`
(used to model `re.split`). -/
def sepMatch (re : RE) (s : Str) : Option Nat :=
  reMatch (matchFuel s) re s [] (fun s1 _ => some (s.length - s1.length))

/-- `re.split` scanner: emit a fragment at each non-overlapping leftmost
separator match.  Fuel-structural; `reSplit` supplies fuel `s.length`. -/
def reSplitGo (sep : Str → Option Nat) : Nat → Str → Str → List Str
  | _, acc, [] => [acc.reverse]
  | 0, acc, s => [acc.reverse ++ s]
  | fuel + 1, acc, c :: rest =>
    match sep (c :: rest) with
    | some (n + 1) => acc.reverse :: reSplitGo sep fuel [] (List.drop n rest)
    | _ => reSplitGo sep fuel (c :: acc) rest

def reSplit (sep : Str → Option Nat) (s : Str) : List Str :=
  reSplitGo sep s.length [] s

/-- Python `str.split()` (split on whitespace runs, dropping empties). -/
def wsRunMatch : Str → Option Nat
  | [] => none
  | c :: t => if pyIsSpace c then some (1 + (t.takeWhile pyIsSpace).length) else none

def pySplitWs (s : Str) : List Str :=
  (reSplit wsRunMatch s).filter (fun w => !w.isEmpty)

/-- Python `str.split(lit)` for a literal separator. -/
def litSepMatch (lit : Str) (s : Str) : Option Nat :=
  if lit.isPrefixOf s then some lit.length else none

def pySplitLit (lit : Str) (s : Str) : List Str :=
  reSplit (litSepMatch lit) s

/-! ## Data model of `natural-language-processor.py` -/

inductive ActionType where
  | navigate | click | type | scroll | wait | screenshot | extract
  | fillForm | login | search | download | upload | custom
  deriving DecidableEq, Repr

structure AutomationAction where
  actionType : ActionType
  target : Option Str := none
  value : Option Str := none
  description : Option Str := none
  deriving DecidableEq, Repr

/-! ### Regex pattern shorthands -/

def rlit (s : String) : RE := .lit s.toList

def rcat : List RE → RE
  | [] => .eps
  | [e] => e
  | e :: es => .seq e (rcat es)

def ralt : List RE → RE
  | [] => .eps
  | [e] => e
  | e :: es => .alt e (ralt es)

def rlits (ss : List String) : RE := ralt (ss.map rlit)

def rws : RE := .cls pyIsSpace

def rwsP : RE := RE.plus rws

def rwsS : RE := .star rws

def rdot : RE := .cls (fun c => !(c == '\n'))

def rdigit : RE := .cls Char.isDigit

def rquote : RE := .cls (fun c => c == '"' || c == '\'')

/-- `(.+)` as capture group `i`. -/
def grpDotPlus (i : Nat) : RE := .grp i (RE.plus rdot)

/-- `(.+?)` as capture group `i`. -/
def grpDotPlusL (i : Nat) : RE := .grp i (RE.plusL rdot)

/-- `(?:the\s+)?`-style optional literal-plus-whitespace prefix. -/
def roptWord (s : String) : RE := .opt (rcat [rlit s, rwsP])

/-! ### The pattern table of `_initialize_patterns` (source order preserved).
Each entry is the transcribed regex plus its static capture-group count. -/

def navigatePatterns : List (RE × Nat) :=
  [(rcat [rlits ["go to", "navigate to", "visit", "open"], rwsP, grpDotPlus 1], 1),
   (rcat [rlits ["load", "browse to"], rwsP, grpDotPlus 1], 1),
   (rcat [rlits ["take me to", "show me"], rwsP, grpDotPlus 1], 1)]

def clickPatterns : List (RE × Nat) :=
  [(rcat [rlits ["click", "press", "tap"], rwsP, roptWord "on", grpDotPlus 1], 1),
   (rcat [rlits ["select", "choose"], rwsP, grpDotPlus 1], 1),
   (rcat [rlits ["hit", "activate"], rwsP, grpDotPlus 1], 1)]

def typePatterns : List (RE × Nat) :=
  [(rcat [rlits ["type", "enter", "input"], rwsP, rquote, grpDotPlusL 1, rquote,
          rwsP, rlits ["in", "into", "on"], rwsP, grpDotPlus 2], 2),
   (rcat [rlits ["write", "fill"], rwsP, grpDotPlusL 1, rwsP,
          rlits ["in", "into"], rwsP, grpDotPlus 2], 2),
   (rcat [rlits ["put", "insert"], rwsP, rquote, grpDotPlusL 1, rquote,
          rwsP, rlits ["in", "into"], rwsP, grpDotPlus 2], 2)]

def scrollPatterns : List (RE × Nat) :=
  [(rcat [rlits ["scroll", "move"], rwsP,
          .grp 1 (ralt [rlit "down", rlit "up", rcat [rlit "to", rwsP, RE.plus rdot]])], 1),
   (ralt [rcat [rlit "page", rwsP, rlit "down"], rcat [rlit "page", rwsP, rlit "up"]], 0),
   (ralt [rcat [rlit "go", rwsP, rlit "to", rwsP, rlit "top"],
          rcat [rlit "go", rwsP, rlit "to", rwsP, rlit "bottom"]], 0)]

def waitPatterns : List (RE × Nat) :=
  [(rcat [rlits ["wait", "pause"], rwsP, roptWord "for", .grp 1 (RE.plus rdigit), rwsS,
          .opt (ralt [rcat [rlit "second", .opt (rlit "s")],
                      rcat [rlit "sec", .opt (rlit "s")], rlit "s"])], 1),
   (rcat [rlits ["delay", "hold"], rwsP, .grp 1 (RE.plus rdigit)], 1),
   (rcat [rlits ["wait for", "wait until"], rwsP, grpDotPlus 1], 1)]

def screenshotPatterns : List (RE × Nat) :=
  [(rcat [rlits ["take", "capture", "grab"], rwsP, roptWord "a",
          rlits ["screenshot", "picture", "image"]], 0),
   (rcat [rlits ["save", "export"], rwsP, rlits ["screenshot", "image"]], 0),
   (rcat [rlits ["show me", "let me see"], rwsP, roptWord "the", rlits ["page", "screen"]], 0)]

def extractPatterns : List (RE × Nat) :=
  [(rcat [rlits ["get", "extract", "find", "grab"], rwsP, roptWord "the", grpDotPlus 1], 1),
   (rcat [rlits ["copy", "save"], rwsP, roptWord "the", grpDotPlus 1], 1),
   (rcat [rlits ["what is", "show me"], rwsP, roptWord "the", grpDotPlus 1], 1)]

def fillFormPatterns : List (RE × Nat) :=
  [(rcat [rlits ["fill", "complete"], rwsP, roptWord "the", rlits ["form", "fields"]], 0),
   (rcat [rlits ["submit", "send"], rwsP, roptWord "the", rlit "form"], 0),
   (rcat [rlits ["enter", "input"], rwsP, roptWord "my", rlits ["details", "information"]], 0)]

def loginPatterns : List (RE × Nat) :=
  [(rcat [rlits ["log in", "login", "sign in"],
          .opt (rcat [rwsP, rlit "to", rwsP, grpDotPlus 1])], 1),
   (rcat [rlits ["authenticate", "access"], rwsP, grpDotPlus 1], 1),
   (rcat [rlits ["enter", "use"], rwsP, roptWord "my", rlits ["credentials", "login"]], 0)]

def searchPatterns : List (RE × Nat) :=
  [(rcat [rlits ["search", "look"], rwsP, roptWord "for", rquote, grpDotPlusL 1, rquote], 1),
   (rcat [rlits ["find", "locate"], rwsP, grpDotPlus 1], 1),
   (rcat [rlits ["query", "lookup"], rwsP, grpDotPlus 1], 1)]

def downloadPatterns : List (RE × Nat) :=
  [(rcat [rlits ["download", "save", "get"], rwsP, grpDotPlus 1], 1),
   (rcat [rlits ["fetch", "retrieve"], rwsP, grpDotPlus 1], 1),
   (rcat [rlits ["export", "backup"], rwsP, grpDotPlus 1], 1)]

def uploadPatterns : List (RE × Nat) :=
  [(rcat [rlits ["upload", "attach", "add"], rwsP, roptWord "file", grpDotPlus 1], 1),
   (rcat [rlits ["select", "choose"], rwsP, roptWord "file", grpDotPlus 1, rwsP,
          rlits ["to upload", "for upload"]], 1),
   (rcat [rlits ["browse", "pick"], rwsP, roptWord "a", rlit "file"], 0)]

/-- Score alternation `(\d+%|\d+\s*percent|100%|all)`. -/
def scoreAltAll : RE :=
  ralt [rcat [RE.plus rdigit, rlit "%"], rcat [RE.plus rdigit, rwsS, rlit "percent"],
        rlit "100%", rlit "all"]

/-- Score alternation `(\d+%|\d+\s*percent|100%)`. -/
def scoreAlt : RE :=
  ralt [rcat [RE.plus rdigit, rlit "%"], rcat [RE.plus rdigit, rwsS, rlit "percent"],
        rlit "100%"]

def customPatterns : List (RE × Nat) :=
  [(rcat [rlits ["complete", "finish", "do"], rwsP, grpDotPlusL 1, rwsP,
          .opt (rcat [rlit "with", rwsP]), .opt (.grp 2 scoreAltAll)], 2),
   (rcat [rlits ["take", "attempt"], rwsP, grpDotPlusL 1, rwsP, .opt (rcat [rlit "and", rwsP]),
          rlits ["pass", "score"], rwsP, .grp 2 scoreAlt], 2),
   (rcat [.opt (rcat [rlit "we", rwsP, rlit "need", rwsP, rlit "to", rwsP]),
          rlits ["accomplish", "achieve"], rwsP, grpDotPlus 1], 1)]

/-- The action pattern table, in the dictionary insertion order of
`_initialize_patterns` (Python dictionaries preserve insertion order). -/
def actionPatternTable : List (ActionType × List (RE × Nat)) :=
  [(.navigate, navigatePatterns), (.click, clickPatterns), (.type, typePatterns),
   (.scroll, scrollPatterns), (.wait, waitPatterns), (.screenshot, screenshotPatterns),
   (.extract, extractPatterns), (.fillForm, fillFormPatterns), (.login, loginPatterns),
   (.search, searchPatterns), (.download, downloadPatterns), (.upload, uploadPatterns),
   (.custom, customPatterns)]

/-! ### `_create_action` -/

/-- Python truthiness of an optional string (`None` and `""` are falsy). -/
def optTruthy : Option Str → Bool
  | some s => !s.isEmpty
  | none => false

/-- `match.groups()` reconstructed from the engine result: entry `i` is
capture group `i+1`, `none` when the group did not participate. -/
def lookupGrp (i : Nat) : Groups → Option Str
  | [] => none
  | (j, g) :: t => if j == i then some g else lookupGrp i t

def pyGroups (n : Nat) (gs : Groups) : List (Option Str) :=
  (List.range n).map (fun i => lookupGrp (i + 1) gs)

/-- Group access `groups[i]`; the source only reads groups that
participated, so the `none` fallback is never exercised there. -/
def grpStr (groups : List (Option Str)) (i : Nat) : Str :=
  (groups.getD i none).getD []

/-- URL normalization of the `ActionType.NAVIGATE` branch of
`_create_action` (natural-language-processor.py lines 330 to 336). -/
def normalizeUrl (url : Str) : Str :=
  if (strL "http://").isPrefixOf url || (strL "https://").isPrefixOf url then url
  else if containsChar '.' url && !((strL "www.").isPrefixOf url) then
    strL "https://" ++ url
  else if !((strL "www.").isPrefixOf url) then strL "https://www." ++ url
  else url

/-- `_create_action` (natural-language-processor.py lines 325 to 423). -/
def createAction (aty : ActionType) (groups : List (Option Str)) (command : Str) :
    AutomationAction :=
  match aty with
  | .navigate =>
    let url := normalizeUrl (pyStrip (grpStr groups 0))
    { actionType := .navigate, target := some url,
      description := some (strL "Navigate to " ++ url) }
  | .click =>
    let target := pyStrip (grpStr groups 0)
    { actionType := .click, target := some target,
      description := some (strL "Click on " ++ target) }
  | .type =>
    let vt :=
      if 2 ≤ groups.length then (pyStrip (grpStr groups 0), pyStrip (grpStr groups 1))
      else
        let parts := pySplitLit (strL " in ") (grpStr groups 0)
        if 2 ≤ parts.length then
          (pyStrip (parts.getD 0 []), pyStrip (joinSpace parts.tail))
        else (pyStrip (grpStr groups 0), strL "input field")
    { actionType := .type, target := some vt.2, value := some vt.1,
      description :=
        some (strL "Type " ++ '\'' :: vt.1 ++ '\'' :: strL " in " ++ vt.2) }
  | .wait =>
    if pyIsDigitStr (grpStr groups 0) then
      let seconds := natStr (digitsToNat (grpStr groups 0))
      { actionType := .wait, value := some seconds,
        description := some (strL "Wait for " ++ seconds ++ strL " seconds") }
    else
      let condition := pyStrip (grpStr groups 0)
      { actionType := .wait, target := some condition,
        description := some (strL "Wait for " ++ condition) }
  | .search =>
    let query := pyStrip (grpStr groups 0)
    { actionType := .search, value := some query,
      description := some (strL "Search for " ++ '\'' :: query ++ ['\'']) }
  | .login =>
    let site :=
      if 0 < groups.length && optTruthy (groups.getD 0 none) then pyStrip (grpStr groups 0)
      else strL "current site"
    { actionType := .login, target := some site,
      description := some (strL "Login to " ++ site) }
  | .custom =>
    let task :=
      if 0 < groups.length && optTruthy (groups.getD 0 none) then pyStrip (grpStr groups 0)
      else strL "task"
    let score :=
      if 1 < groups.length && optTruthy (groups.getD 1 none) then pyStrip (grpStr groups 1)
      else strL "100%"
    { actionType := .custom, target := some task, value := some score,
      description :=
        some (strL "Complete " ++ task ++ strL " with " ++ score ++ strL " score") }
  | aty =>
    let target :=
      if 0 < groups.length && optTruthy (groups.getD 0 none) then
        some (pyStrip (grpStr groups 0))
      else none
    { actionType := aty, target := target, description := some command }

/-! ### `_parse_single_command` and its fallbacks -/

def tryPatterns (aty : ActionType) (cmd : Str) : List (RE × Nat) → Option AutomationAction
  | [] => none
  | (re, n) :: rest =>
    match reSearch re cmd with
    | some gs => some (createAction aty (pyGroups n gs) cmd)
    | none => tryPatterns aty cmd rest

def tryPatternTable (cmd : Str) : List (ActionType × List (RE × Nat)) → Option AutomationAction
  | [] => none
  | (aty, ps) :: rest =>
    match tryPatterns aty cmd ps with
    | some a => some a
    | none => tryPatternTable cmd rest

/-- `_infer_action_from_keywords` (lines 425 to 454). -/
def inferActionFromKeywords (command : Str) : Option AutomationAction :=
  let words := pySplitWs (lowerStr command)
  if words.any (fun w =>
      (strL "http://").isPrefixOf w || (strL "https://").isPrefixOf w ||
        containsChar '.' w) then
    some { actionType := .navigate, target := some command,
           description := some (strL "Navigate to " ++ command) }
  else if words.any (fun w =>
      (["click", "press", "tap", "select"] : List String).any (fun kw => w == strL kw)) then
    let target := if 1 < words.length then joinSpace words.tail else strL "element"
    some { actionType := .click, target := some target,
           description := some (strL "Click on " ++ target) }
  else if words.any (fun w =>
      (["what", "show", "get", "find", "tell"] : List String).any (fun kw => w == strL kw)) then
    some { actionType := .extract, target := some command,
           description := some (strL "Extract information: " ++ command) }
  else none

/-- `_parse_single_command` (lines 313 to 323). -/
def parseSingleCommand (command : Str) : Option AutomationAction :=
  match tryPatternTable command actionPatternTable with
  | some a => some a
  | none => inferActionFromKeywords command

/-! ### `_parse_complex_phrases` (lines 212 to 271) -/

def authPatterns : List (RE × Nat) :=
  [(rcat [rlit "login", rwsP, rlit "with", rwsP, grpDotPlusL 1, rwsP, rlit "to", rwsP,
          roptWord "the", grpDotPlus 2], 2),
   (rcat [rlit "sign", rwsP, rlit "in", rwsP, roptWord "with", grpDotPlusL 1, rwsP,
          roptWord "to", roptWord "the", grpDotPlus 2], 2),
   (rcat [rlit "authenticate", rwsP, roptWord "with", grpDotPlusL 1, rwsP,
          roptWord "for", grpDotPlus 2], 2)]

/-- The `(?:\s*,|\s+and|\s*$)` terminator of the find patterns. -/
def findTail : RE :=
  ralt [rcat [rwsS, rlit ","], rcat [rwsP, rlit "and"], rcat [rwsS, .eol]]

def findPatterns : List (RE × Nat) :=
  [(rcat [rlit "find", rwsP, roptWord "my", grpDotPlusL 1, findTail], 1),
   (rcat [rlit "look", rwsP, rlit "for", rwsP, roptWord "my", grpDotPlusL 1, findTail], 1),
   (rcat [rlit "locate", rwsP, roptWord "my", grpDotPlusL 1, findTail], 1),
   (rcat [rlit "see", rwsP, roptWord "what", roptWord "i", grpDotPlusL 1, findTail], 1)]

def completionPatterns : List (RE × Nat) :=
  [(rcat [rlits ["take", "complete", "do", "finish"], rwsP, roptWord "the", grpDotPlusL 1,
          rwsP, .opt (rcat [rlit "and", rwsP]),
          .opt (rcat [rlit "pass", rwsP, rlit "them", rwsP]), .opt (.grp 2 scoreAltAll)], 2),
   (rcat [rlits ["pass", "complete"], rwsP, grpDotPlusL 1, rwsP, roptWord "at",
          .opt (.grp 2 scoreAlt)], 2),
   (rcat [.opt (rcat [rlit "we", rwsP, rlit "need", rwsP, rlit "to", rwsP]),
          rlits ["take", "do", "complete"], rwsP, grpDotPlusL 1, rwsP,
          .opt (rcat [rlit "all", rwsP]), .opt (rlit "please")], 1)]

/-- First pattern of a list that matches, with its reconstructed groups. -/
def firstMatch (cmd : Str) : List (RE × Nat) → Option (List (Option Str))
  | [] => none
  | (re, n) :: rest =>
    match reSearch re cmd with
    | some gs => some (pyGroups n gs)
    | none => firstMatch cmd rest

def parseComplexPhrases (command : Str) : Option AutomationAction :=
  match firstMatch command authPatterns with
  | some groups =>
    let method := pyStrip (grpStr groups 0)
    let target := pyStrip (grpStr groups 1)
    some { actionType := .login, target := some (method ++ strL " login"),
           value := some target,
           description :=
             some (strL "Login with " ++ method ++ strL " to " ++ target) }
  | none =>
    match firstMatch command findPatterns with
    | some groups =>
      let target := pyStrip (grpStr groups 0)
      some { actionType := .search, target := some target,
             description := some (strL "Find " ++ target) }
    | none =>
      match firstMatch command completionPatterns with
      | some groups =>
        let target := pyStrip (grpStr groups 0)
        let score :=
          if 1 < groups.length && optTruthy (groups.getD 1 none) then grpStr groups 1
          else strL "100%"
        some { actionType := .custom, target := some target, value := some score,
               description :=
                 some (strL "Complete " ++ target ++ strL " with " ++ score ++
                   strL " score") }
      | none => none

/-- `_parse_single_command_enhanced` (lines 202 to 210); the
`previous_actions` argument is unused by the source body. -/
def parseSingleCommandEnhanced (command : Str) : Option AutomationAction :=
  match parseSingleCommand command with
  | some a => some a
  | none => parseComplexPhrases command

/-! ### `_infer_complex_action` (lines 273 to 311) -/

def interactionKeywords : List String :=
  ["quizzes", "tests", "assessments", "exams", "assignments",
   "account", "profile", "dashboard", "settings",
   "results", "scores", "grades", "progress"]

def inferComplexRest (command : Str) : Option AutomationAction :=
  if (["my", "i", "me"] : List String).any (fun w => containsSub (strL w) command) &&
      (["passed", "completed", "finished"] : List String).any
        (fun w => containsSub (strL w) command) then
    some { actionType := .search, target := some (strL "completed items"),
           description := some (strL "Find completed items") }
  else if 5 < command.length then
    some { actionType := .search, target := some command,
           description := some (strL "Search for: " ++ command) }
  else none

def inferComplexAction (command : Str) (previousActions : List AutomationAction) :
    Option AutomationAction :=
  match previousActions.getLast? with
  | some lastA =>
    if lastA.actionType = ActionType.navigate then
      match interactionKeywords.find? (fun kw => containsSub (strL kw) command) with
      | some kw =>
        some { actionType := .click, target := some (strL kw),
               description := some (strL "Click on " ++ strL kw) }
      | none => inferComplexRest command
    else inferComplexRest command
  | none => inferComplexRest command

/-! ### Compound splitting and `process_command` -/

def separatorKeywordLook : RE :=
  .look (rlits ["find", "see", "take", "click", "go", "navigate", "login", "search",
                "fill", "submit", "wait", "scroll"])

/-- Separator 1 of `_split_compound_command_enhanced`: `\s+and\s+then\s+`. -/
def sepAndThenRE : RE := rcat [rwsP, rlit "and", rwsP, rlit "then", rwsP]

/-- Separator 2 of `_split_compound_command_enhanced`: `\s+then\s+`. -/
def sepThenRE : RE := rcat [rwsP, rlit "then", rwsP]

/-- The separator list of `_split_compound_command_enhanced`
(lines 166 to 179), in source order. -/
def separators : List RE :=
  [sepAndThenRE,
   sepThenRE,
   rcat [rwsS, rlit ",", rwsS, rlit "then", rwsP],
   rcat [rwsS, rlit ",", rwsS, rlit "and", rwsP, rlit "then", rwsP],
   rcat [rwsS, rlit ",", rwsS, rlit "and", rwsP],
   rcat [rwsS, rlit ";", rwsS],
   rcat [rwsP, rlit "after", rwsP, rlit "that", rwsP],
   rcat [rwsP, rlit "next", rwsP],
   rcat [rwsP, rlit "afterwards", rwsP],
   rcat [rwsS, rlit ",", rwsS, separatorKeywordLook],
   rcat [rwsP, rlit "and", rwsP, separatorKeywordLook]]

/-- `_split_compound_command_enhanced` (lines 164 to 196). -/
def splitCompoundCommandEnhanced (command : Str) : List Str :=
  let commands :=
    separators.foldl (fun cmds sep => cmds.flatMap (fun c => reSplit (sepMatch sep) c))
      [command]
  (commands.map pyStrip).filter (fun c => 2 < c.length)

/-- One iteration of the `process_command` loop body for a fragment:
strip, skip empties, parse with fallback inference. -/
def fragStep (frag : Str) (prev : List AutomationAction) : Option AutomationAction :=
  let f := pyStrip frag
  if f.isEmpty then none
  else
    match parseSingleCommandEnhanced f with
    | some a => some a
    | none => inferComplexAction f prev

def processGo : List Str → List AutomationAction → List AutomationAction
  | [], acc => acc
  | f :: fs, acc =>
    match fragStep f acc with
    | some a => processGo fs (acc ++ [a])
    | none => processGo fs acc

/-- `process_command` (lines 135 to 162). -/
def processCommand (command : Str) : List AutomationAction :=
  let cmd := pyStrip (lowerStr command)
  processGo (splitCompoundCommandEnhanced cmd) []

/-! ## Model of `remote_agent.py` -/

inductive TaskStatus where
  | notStarted | inProgress | completed | failed | retakeAvailable
  deriving DecidableEq, Repr

inductive QuestionType where
  | multipleChoice | coding | essay | math | formFill | general
  deriving DecidableEq, Repr

structure Question where
  text : Str
  questionType : QuestionType
  options : List Str := []
  context : Str := []
  deriving DecidableEq, Repr

structure QuizItem where
  title : Str
  url : Str
  status : TaskStatus
  startButtonSelector : Option Str := none
  deriving DecidableEq, Repr

/-- `any(indicator in s for indicator in inds)`. -/
def anyIndicator (inds : List String) (s : Str) : Bool :=
  inds.any (fun i => containsSub (strL i) s)

def multipleChoiceIndicators : List String := ["a)", "b)", "c)", "d)", "select", "choose"]

def codingIndicators : List String :=
  ["code", "function", "algorithm", "programming", "python", "javascript"]

def mathIndicators : List String := ["calculate", "solve", "equation", "formula", "math"]

def essayIndicators : List String := ["explain", "describe", "discuss", "essay", "paragraph"]

/-- `QuestionAnsweringAI.classify_question` (remote_agent.py lines 249 to 269). -/
def classifyQuestion (questionText : Str) : QuestionType :=
  let questionLower := lowerStr questionText
  if anyIndicator multipleChoiceIndicators questionLower then .multipleChoice
  else if anyIndicator codingIndicators questionLower then .coding
  else if anyIndicator mathIndicators questionLower then .math
  else if anyIndicator essayIndicators questionLower then .essay
  else .general

def completionTextIndicators : List String := ["✓", "completed", "100%", "passed", "done"]

def progressTextIndicators : List String := ["in progress", "started", "continue"]

def retakeTextIndicators : List String := ["failed", "retake", "try again"]

def completionClassIndicators : List String := ["completed", "done", "passed"]

def progressClassIndicators : List String := ["in-progress", "started"]

/-- `TaskExecutionEngine._detect_completion_status` (lines 495 to 527); the
element is represented by its text content and its `class` attribute.  The
text is lowercased before the text checks; the class attribute is matched
as is, exactly as in the source. -/
def detectCompletionStatus (textContent classAttr : Str) : TaskStatus :=
  let textLower := lowerStr textContent
  if anyIndicator completionTextIndicators textLower then .completed
  else if anyIndicator progressTextIndicators textLower then .inProgress
  else if anyIndicator retakeTextIndicators textLower then .retakeAvailable
  else if anyIndicator completionClassIndicators classAttr then .completed
  else if anyIndicator progressClassIndicators classAttr then .inProgress
  else .notStarted

/-- Page-interaction oracle for the question loop of `complete_quiz`
(lines 529 to 583): the four awaited page operations of the loop body,
as functions of an abstract page state `σ`. -/
structure QuizEnv (σ : Type) where
  isQuizFinished : σ → Bool
  getCurrentQuestion : σ → Option Question
  solveQuestion : σ → Question → Str
  submitAnswer : σ → Question → Str → Bool × σ

/-- `max_questions = 50` (line 547). -/
def maxQuestions : Nat := 50

/-- The `while question_count < max_questions` loop of `complete_quiz`
(lines 549 to 576), returning the final result together with the final
`question_count`.  The fuel argument equals `maxQuestions - questionCount`
throughout, making the recursion structural. -/
def questionLoopGo {σ : Type} (env : QuizEnv σ) : Nat → σ → Nat → Bool × Nat
  | 0, _, questionCount => (true, questionCount)
  | fuel + 1, s, questionCount =>
    if env.isQuizFinished s then (true, questionCount)
    else
      match env.getCurrentQuestion s with
      | none => (true, questionCount)
      | some q =>
        let answer := env.solveQuestion s q
        let res := env.submitAnswer s q answer
        if res.1 then questionLoopGo env fuel res.2 (questionCount + 1)
        else (false, questionCount)

def questionLoop {σ : Type} (env : QuizEnv σ) (s : σ) (questionCount : Nat) : Bool × Nat :=
  questionLoopGo env (maxQuestions - questionCount) s questionCount

/-- `complete_quiz` outcome for one item, starting the loop at count 0 on
the page state reached after the navigation and start-button steps. -/
def completeQuiz {σ : Type} (env : QuizEnv σ) (s : σ) : Bool :=
  (questionLoop env s 0).1

/-- Step 6 filter of `complete_turing_quizzes` (lines 875 to 878). -/
def incompleteQuizzes (allQuizzes : List QuizItem) : List QuizItem :=
  allQuizzes.filter (fun q =>
    q.status == TaskStatus.notStarted || q.status == TaskStatus.inProgress ||
      q.status == TaskStatus.retakeAvailable)

/-- The step 7 loop of `complete_turing_quizzes` (lines 886 to 892):
every item is attempted in order and `completed_count` is incremented
exactly when `complete_quiz` reports success. -/
def completeLoopGo (oracle : QuizItem → Bool) : List QuizItem → Nat → Nat
  | [], completedCount => completedCount
  | quiz :: rest, completedCount =>
    completeLoopGo oracle rest (if oracle quiz then completedCount + 1 else completedCount)

/-- `complete_turing_quizzes` steps 6 and 7 (lines 875 to 899), abstracted
over the per-item `complete_quiz` outcome; returns
`(completed_count, number of incomplete quizzes)`, the two numbers of the
final result message. -/
def completeTuringQuizzes (oracle : QuizItem → Bool) (allQuizzes : List QuizItem) :
    Nat × Nat :=
  let inc := incompleteQuizzes allQuizzes
  (completeLoopGo oracle inc 0, inc.length)

/-- The final result f-string of line 895. -/
def turingResultMessage (completedCount attempted : Nat) : Str :=
  strL "✅ Successfully completed " ++ natStr completedCount ++ strL " out of " ++
    natStr attempted ++ strL " quizzes"

/-! ## Model of `natural-language-executor.py` -/

structure ExecOutcome where
  success : Bool
  message : Str
  deriving DecidableEq, Repr

/-- The eleven per-kind executors `_execute_navigate` … `_execute_custom`,
abstracted as outcome-returning handlers (they perform page operations). -/
structure ExecEnv where
  executeNavigate : AutomationAction → ExecOutcome
  executeClick : AutomationAction → ExecOutcome
  executeType : AutomationAction → ExecOutcome
  executeScroll : AutomationAction → ExecOutcome
  executeWait : AutomationAction → ExecOutcome
  executeScreenshot : AutomationAction → ExecOutcome
  executeExtract : AutomationAction → ExecOutcome
  executeSearch : AutomationAction → ExecOutcome
  executeLogin : AutomationAction → ExecOutcome
  executeFillForm : AutomationAction → ExecOutcome
  executeCustom : AutomationAction → ExecOutcome

/-- `str(action.action_type)` for the Python enum. -/
def actionTypeStr : ActionType → Str
  | .navigate => strL "ActionType.NAVIGATE"
  | .click => strL "ActionType.CLICK"
  | .type => strL "ActionType.TYPE"
  | .scroll => strL "ActionType.SCROLL"
  | .wait => strL "ActionType.WAIT"
  | .screenshot => strL "ActionType.SCREENSHOT"
  | .extract => strL "ActionType.EXTRACT"
  | .fillForm => strL "ActionType.FILL_FORM"
  | .login => strL "ActionType.LOGIN"
  | .search => strL "ActionType.SEARCH"
  | .download => strL "ActionType.DOWNLOAD"
  | .upload => strL "ActionType.UPLOAD"
  | .custom => strL "ActionType.CUSTOM"

/-- The fall-through outcome of `_execute_action` for kinds outside the
dispatched set (natural-language-executor.py lines 108 to 112). -/
def notImplementedOutcome (aty : ActionType) : ExecOutcome :=
  { success := false,
    message := strL "Action type " ++ actionTypeStr aty ++ strL " not implemented yet" }

/-- `_execute_action` (lines 84 to 120): total dispatch over the action
kinds; the eleven handled kinds delegate to their executor, every other
kind falls through to the not-implemented outcome. -/
def executeAction (env : ExecEnv) (action : AutomationAction) : ExecOutcome :=
  match action.actionType with
  | .navigate => env.executeNavigate action
  | .click => env.executeClick action
  | .type => env.executeType action
  | .scroll => env.executeScroll action
  | .wait => env.executeWait action
  | .screenshot => env.executeScreenshot action
  | .extract => env.executeExtract action
  | .search => env.executeSearch action
  | .login => env.executeLogin action
  | .fillForm => env.executeFillForm action
  | .custom => env.executeCustom action
  | aty => notImplementedOutcome aty

/-! ## Further definitions used by the claim statements -/

/-- A string free of (ASCII) uppercase letters. -/
def upperFree (s : Str) : Bool := s.all (fun c => !c.isUpper)

def upperFreeOpt : Option Str → Bool
  | none => true
  | some s => upperFree s

/-- Modelled from the spec: the comparison side of the separator claim,
in the words of the spec — "splitting the command on `then` alone and
stripping the surrounding `and` from the resulting fragments".  One
leading and one trailing `and` word is removed from each fragment, and
fragments are cleaned the same way the enhanced splitter cleans its
fragments, so that the two fragment lists are comparable. -/
def stripAndEnds (s : Str) : Str :=
  let t := pyStrip s
  let t1 :=
    if (strL "and ").isPrefixOf t then t.drop 4
    else if t == strL "and" then [] else t
  let t2 :=
    if (strL " and").isSuffixOf t1 then t1.take (t1.length - 4)
    else if t1 == strL "and" then [] else t1
  pyStrip t2

/-- Modelled from the spec: split on `then` alone, strip surrounding
`and`, clean fragments. -/
def specSplitOnThenStripAnd (command : Str) : List Str :=
  (((reSplit (sepMatch sepThenRE) command).map stripAndEnds).map pyStrip).filter
    (fun c => 2 < c.length)

/-- Concrete quiz environment whose finished indicator never matches,
which always finds a question, and whose submissions always succeed. -/
def busyQuizEnv : QuizEnv Unit :=
  { isQuizFinished := fun _ => false,
    getCurrentQuestion := fun _ =>
      some { text := strL "what is two plus two", questionType := .general },
    solveQuestion := fun _ _ => strL "four",
    submitAnswer := fun _ _ _ => (true, ()) }

/-- Concrete quiz environment whose finished indicator matches at once. -/
def doneQuizEnv : QuizEnv Unit :=
  { busyQuizEnv with isQuizFinished := fun _ => true }

/-- Concrete quiz environment in which no question can be extracted. -/
def noQuestionQuizEnv : QuizEnv Unit :=
  { busyQuizEnv with getCurrentQuestion := fun _ => none }

/-- Concrete executor environment whose handlers all succeed. -/
def trivialExecEnv : ExecEnv :=
  { executeNavigate := fun _ => { success := true, message := [] },
    executeClick := fun _ => { success := true, message := [] },
    executeType := fun _ => { success := true, message := [] },
    executeScroll := fun _ => { success := true, message := [] },
    executeWait := fun _ => { success := true, message := [] },
    executeScreenshot := fun _ => { success := true, message := [] },
    executeExtract := fun _ => { success := true, message := [] },
    executeSearch := fun _ => { success := true, message := [] },
    executeLogin := fun _ => { success := true, message := [] },
    executeFillForm := fun _ => { success := true, message := [] },
    executeCustom := fun _ => { success := true, message := [] } }

/-- Proposition form of `upperFree`. -/
def UFP (s : Str) : Prop := ∀ c ∈ s, c.isUpper = false

/-- All captured groups are uppercase-free. -/
def GFP (gs : Groups) : Prop := ∀ p ∈ gs, UFP p.2

/-- All reconstructed optional groups are uppercase-free. -/
def OGFP (groups : List (Option Str)) : Prop :=
  ∀ og ∈ groups, ∀ g, og = some g → UFP g

/-- Target and value of an action are uppercase-free. -/
def ActUF (a : AutomationAction) : Prop :=
  upperFreeOpt a.target = true ∧ upperFreeOpt a.value = true

/-! ## Helper lemmas -/

theorem questionLoopGo_count_le {σ : Type} (env : QuizEnv σ) :
    ∀ (fuel : Nat) (s : σ) (c : Nat), (questionLoopGo env fuel s c).2 ≤ c + fuel := by
  intro fuel
  induction fuel with
  | zero => intro s c; simp [questionLoopGo]
  | succ n ih =>
    intro s c
    unfold questionLoopGo
    cases hb : env.isQuizFinished s with
    | true => simp
    | false =>
      simp only [Bool.false_eq_true, if_false]
      cases hq : env.getCurrentQuestion s with
      | none => simp
      | some q =>
        simp only []
        cases hs : (env.submitAnswer s q (env.solveQuestion s q)).1 with
        | true =>
          simp only [hs, if_true]
          calc (questionLoopGo env n (env.submitAnswer s q (env.solveQuestion s q)).2
                  (c + 1)).2 ≤ (c + 1) + n := ih _ _
            _ ≤ c + (n + 1) := by omega
        | false => simp [hs]

theorem questionLoopGo_all_submit {σ : Type} (env : QuizEnv σ)
    (hf : ∀ t, env.isQuizFinished t = false)
    (hq : ∀ t, (env.getCurrentQuestion t).isSome = true)
    (hs : ∀ t q a, (env.submitAnswer t q a).1 = true) :
    ∀ (fuel : Nat) (s : σ) (c : Nat), questionLoopGo env fuel s c = (true, c + fuel) := by
  intro fuel
  induction fuel with
  | zero => intro s c; simp [questionLoopGo]
  | succ n ih =>
    intro s c
    unfold questionLoopGo
    obtain ⟨q, hq1⟩ := Option.isSome_iff_exists.mp (hq s)
    rw [hf s, hq1]
    simp only [Bool.false_eq_true, if_false]
    rw [hs s q (env.solveQuestion s q)]
    simp only [if_true]
    rw [ih]
    congr 1
    omega

theorem completeLoopGo_eq (oracle : QuizItem → Bool) :
    ∀ (l : List QuizItem) (n : Nat),
      completeLoopGo oracle l n = n + (l.filter oracle).length := by
  intro l
  induction l with
  | nil => intro n; simp [completeLoopGo]
  | cons q rest ih =>
    intro n
    unfold completeLoopGo
    cases ho : oracle q <;> (simp [List.filter_cons, ho, ih]; try omega)

/-! ## Claim theorems -/

/-- C2: for every quiz item and page state, the question loop of
`complete_quiz` executes at most its configured maximum of 50 iterations
even when the finished indicator never matches; the counter counts the
iterations that submitted an answer and the loop exits at the bound. -/
theorem C2_question_loop_bounded :
    ∀ (σ : Type) (env : QuizEnv σ) (s : σ),
      (∀ t, env.isQuizFinished t = false) →
      (questionLoop env s 0).2 ≤ maxQuestions ∧ maxQuestions = 50 ∧
        (∀ (t : σ) (c : Nat), maxQuestions ≤ c → questionLoop env t c = (true, c)) := by
  intro σ env s _
  refine ⟨?_, rfl, ?_⟩
  · have h := questionLoopGo_count_le env (maxQuestions - 0) s 0
    simpa [questionLoop] using h
  · intro t c hc
    have h0 : maxQuestions - c = 0 := by omega
    simp [questionLoop, h0, questionLoopGo]

/-- Witness for C2 at a concrete environment that never reports the quiz
finished, always extracts a question and always submits successfully. -/
theorem C2_question_loop_bounded_witness :
    (questionLoop busyQuizEnv () 0).2 ≤ maxQuestions :=
  (C2_question_loop_bounded Unit busyQuizEnv () (fun _ => rfl)).1

/-- C3: one item failing `complete_quiz` never aborts the batch: the items
after it are still attempted, the attempted count is the full batch length
and the completed count collects the successes on both sides. -/
theorem C3_partial_failure_isolation :
    ∀ (oracle : QuizItem → Bool) (allQuizzes : List QuizItem)
      (pre post : List QuizItem) (q : QuizItem),
      incompleteQuizzes allQuizzes = pre ++ q :: post →
      oracle q = false →
      completeTuringQuizzes oracle allQuizzes =
        ((pre.filter oracle).length + (post.filter oracle).length,
          pre.length + 1 + post.length) := by
  intro oracle allQuizzes pre post q hinc ho
  unfold completeTuringQuizzes
  rw [hinc]
  dsimp only
  rw [completeLoopGo_eq]
  simp only [List.filter_append, List.filter_cons, ho, List.length_append,
    List.length_cons, Prod.mk.injEq, Bool.false_eq_true, if_false]
  constructor <;> omega

/-- Witness for C3: the failing first item does not stop the second one
from being attempted and counted. -/
theorem C3_partial_failure_isolation_witness :
    completeTuringQuizzes (fun i => i.title == strL "bbb")
        [{ title := strL "aaa", url := strL "u", status := TaskStatus.notStarted },
         { title := strL "bbb", url := strL "u", status := TaskStatus.notStarted }] =
      (1, 2) := by
  have h := C3_partial_failure_isolation (fun i => i.title == strL "bbb")
    [{ title := strL "aaa", url := strL "u", status := TaskStatus.notStarted },
     { title := strL "bbb", url := strL "u", status := TaskStatus.notStarted }]
    [] [{ title := strL "bbb", url := strL "u", status := TaskStatus.notStarted }]
    { title := strL "aaa", url := strL "u", status := TaskStatus.notStarted }
    (by decide) (by decide)
  simpa using h

/-- C4: status classification checks textual markers before CSS class
markers and the first satisfied rule wins: a completion text marker forces
`completed` whatever the class attribute says, the text
`"✓ Completed"` beats a class attribute containing `"in-progress"`, and
an element matching no rule defaults to `notStarted`. -/
theorem C4_status_precedence :
    (∀ text cls, anyIndicator completionTextIndicators (lowerStr text) = true →
      detectCompletionStatus text cls = TaskStatus.completed) ∧
    detectCompletionStatus (strL "✓ Completed") (strL "quiz in-progress") =
      TaskStatus.completed ∧
    (∀ text cls,
      anyIndicator completionTextIndicators (lowerStr text) = false →
      anyIndicator progressTextIndicators (lowerStr text) = false →
      anyIndicator retakeTextIndicators (lowerStr text) = false →
      anyIndicator completionClassIndicators cls = false →
      anyIndicator progressClassIndicators cls = false →
      detectCompletionStatus text cls = TaskStatus.notStarted) := by
  refine ⟨?_, by decide, ?_⟩
  · intro text cls h
    simp [detectCompletionStatus, h]
  · intro text cls h1 h2 h3 h4 h5
    simp [detectCompletionStatus, h1, h2, h3, h4, h5]

/-- Witness for C4 at concrete elements: a completion text marker beats a
progress class marker, and an indicator-free element is `notStarted`. -/
theorem C4_status_precedence_witness :
    detectCompletionStatus (strL "Course passed") (strL "card in-progress") =
        TaskStatus.completed ∧
      detectCompletionStatus (strL "Algebra basics") (strL "card shiny") =
        TaskStatus.notStarted :=
  ⟨C4_status_precedence.1 (strL "Course passed") (strL "card in-progress") (by decide),
   C4_status_precedence.2.2 (strL "Algebra basics") (strL "card shiny")
     (by decide) (by decide) (by decide) (by decide) (by decide)⟩

/-- C5 counterexample: the code classifies `"What is 5 + 3?"` as
`general`, not `math` — none of the math keywords occurs in it. -/
theorem C5_classify_counterexample :
    classifyQuestion (strL "What is 5 + 3?") = QuestionType.general ∧
      classifyQuestion (strL "What is 5 + 3?") ≠ QuestionType.math := by
  decide

/-- C5 amended: `"What is 5 + 3?"` classifies as `general` (no math
keyword occurs), `"Select A, B, C, or D"` as `multipleChoice`, and the
keyword taxonomy checks multiple-choice markers first, then coding, then
math, then essay, defaulting to `general`. -/
theorem C5_classify_amended :
    classifyQuestion (strL "What is 5 + 3?") = QuestionType.general ∧
    classifyQuestion (strL "Select A, B, C, or D") = QuestionType.multipleChoice ∧
    (∀ t, anyIndicator multipleChoiceIndicators (lowerStr t) = true →
      classifyQuestion t = QuestionType.multipleChoice) ∧
    (∀ t, anyIndicator multipleChoiceIndicators (lowerStr t) = false →
      anyIndicator codingIndicators (lowerStr t) = true →
      classifyQuestion t = QuestionType.coding) ∧
    (∀ t, anyIndicator multipleChoiceIndicators (lowerStr t) = false →
      anyIndicator codingIndicators (lowerStr t) = false →
      anyIndicator mathIndicators (lowerStr t) = true →
      classifyQuestion t = QuestionType.math) ∧
    (∀ t, anyIndicator multipleChoiceIndicators (lowerStr t) = false →
      anyIndicator codingIndicators (lowerStr t) = false →
      anyIndicator mathIndicators (lowerStr t) = false →
      anyIndicator essayIndicators (lowerStr t) = true →
      classifyQuestion t = QuestionType.essay) ∧
    (∀ t, anyIndicator multipleChoiceIndicators (lowerStr t) = false →
      anyIndicator codingIndicators (lowerStr t) = false →
      anyIndicator mathIndicators (lowerStr t) = false →
      anyIndicator essayIndicators (lowerStr t) = false →
      classifyQuestion t = QuestionType.general) := by
  refine ⟨by decide, by decide, ?_, ?_, ?_, ?_, ?_⟩ <;>
    (intro t; intros; simp [classifyQuestion, *])

/-- Witness for C5 at concrete questions exercising the ordered keyword
checks of the taxonomy. -/
theorem C5_classify_amended_witness :
    classifyQuestion (strL "solve for x") = QuestionType.math ∧
      classifyQuestion (strL "describe your day") = QuestionType.essay :=
  ⟨C5_classify_amended.2.2.2.2.1 (strL "solve for x")
     (by decide) (by decide) (by decide),
   C5_classify_amended.2.2.2.2.2.1 (strL "describe your day")
     (by decide) (by decide) (by decide) (by decide)⟩

/-- C7: `_execute_action` is a total dispatch returning a structured
outcome; an action kind outside the dispatched set — `download` and
`upload`, both of which the parser can produce — yields
`success = false` with the not-implemented message instead of raising. -/
theorem C7_dispatch_total :
    (∀ (env : ExecEnv) (action : AutomationAction),
      action.actionType = ActionType.download ∨ action.actionType = ActionType.upload →
      executeAction env action = notImplementedOutcome action.actionType ∧
        (executeAction env action).success = false) ∧
    (processCommand (strL "fetch the data")).map AutomationAction.actionType =
      [ActionType.download] ∧
    (processCommand (strL "attach the file")).map AutomationAction.actionType =
      [ActionType.upload] := by
  refine ⟨?_, by decide, by decide⟩
  intro env action h
  rcases h with h | h <;> rw [show executeAction env action = notImplementedOutcome action.actionType by simp [executeAction, h]] <;> exact ⟨rfl, rfl⟩

/-- Witness for C7 at a concrete environment and concrete download and
upload actions. -/
theorem C7_dispatch_total_witness :
    executeAction trivialExecEnv { actionType := ActionType.download } =
        notImplementedOutcome ActionType.download ∧
      (executeAction trivialExecEnv { actionType := ActionType.upload }).success = false :=
  ⟨(C7_dispatch_total.1 trivialExecEnv { actionType := ActionType.download }
      (Or.inl rfl)).1,
   (C7_dispatch_total.1 trivialExecEnv { actionType := ActionType.upload }
      (Or.inr rfl)).2⟩

/-- C9: `complete_quiz` reports success when the finished indicator
matches, when no question can be extracted, and even when the loop exits
solely by reaching the 50-iteration cap; a succeeding item is counted as
completed in the aggregate result. -/
theorem C9_complete_quiz_lenient_success :
    (∀ (σ : Type) (env : QuizEnv σ) (s : σ), env.isQuizFinished s = true →
      completeQuiz env s = true) ∧
    (∀ (σ : Type) (env : QuizEnv σ) (s : σ), env.isQuizFinished s = false →
      env.getCurrentQuestion s = none → completeQuiz env s = true) ∧
    (∀ (σ : Type) (env : QuizEnv σ) (s : σ),
      (∀ t, env.isQuizFinished t = false) →
      (∀ t, (env.getCurrentQuestion t).isSome = true) →
      (∀ t q a, (env.submitAnswer t q a).1 = true) →
      questionLoop env s 0 = (true, maxQuestions)) ∧
    (∀ (oracle : QuizItem → Bool) (item : QuizItem), oracle item = true →
      item.status = TaskStatus.notStarted →
      completeTuringQuizzes oracle [item] = (1, 1)) := by
  refine ⟨?_, ?_, ?_, ?_⟩
  · intro σ env s h
    simp [completeQuiz, questionLoop, maxQuestions, questionLoopGo, h]
  · intro σ env s h1 h2
    simp [completeQuiz, questionLoop, maxQuestions, questionLoopGo, h1, h2]
  · intro σ env s hf hq hs
    have h := questionLoopGo_all_submit env hf hq hs (maxQuestions - 0) s 0
    simpa [questionLoop] using h
  · intro oracle item h1 h2
    simp [completeTuringQuizzes, incompleteQuizzes, h2, completeLoopGo, h1]

/-- Witness for C9 at concrete environments: immediate finish, missing
question, and a full 50-iteration run, plus the aggregate count. -/
theorem C9_complete_quiz_lenient_success_witness :
    completeQuiz doneQuizEnv () = true ∧
      completeQuiz noQuestionQuizEnv () = true ∧
      questionLoop busyQuizEnv () 0 = (true, maxQuestions) ∧
      completeTuringQuizzes (fun _ => true)
          [{ title := strL "quiz", url := strL "u", status := TaskStatus.notStarted }] =
        (1, 1) :=
  ⟨C9_complete_quiz_lenient_success.1 Unit doneQuizEnv () rfl,
   C9_complete_quiz_lenient_success.2.1 Unit noQuestionQuizEnv () rfl rfl,
   C9_complete_quiz_lenient_success.2.2.1 Unit busyQuizEnv ()
     (fun _ => rfl) (fun _ => rfl) (fun _ _ _ => rfl),
   C9_complete_quiz_lenient_success.2.2.2 (fun _ => true)
     { title := strL "quiz", url := strL "u", status := TaskStatus.notStarted } rfl rfl⟩

/-- C1 counterexample: on `"go to google.com"` the parser returns one
Navigate action whose target is `https://google.com`, not
`https://www.google.com` — the `www.` prefix is never added to a token
that already contains a dot. -/
theorem C1_navigate_counterexample :
    ¬ ∃ a : AutomationAction, processCommand (strL "go to google.com") = [a] ∧
        a.target = some (strL "https://www.google.com") := by
  rintro ⟨a, h1, h2⟩
  have hc : processCommand (strL "go to google.com") =
      [{ actionType := ActionType.navigate, target := some (strL "https://google.com"),
         value := none,
         description := some (strL "Navigate to https://google.com") }] := by decide
  rw [hc] at h1
  injection h1 with ha _
  rw [← ha] at h2
  exact absurd h2 (by decide)

/-- C1 amended: `parse("go to google.com")` yields exactly one Navigate
action with target `https://google.com`: a bare domain token containing a
dot and lacking a scheme and a leading `www.` is normalized by prepending
`https://` only; `www.` is prepended only when the token has no dot. -/
theorem C1_navigate_amended :
    processCommand (strL "go to google.com") =
      [{ actionType := ActionType.navigate, target := some (strL "https://google.com"),
         value := none,
         description := some (strL "Navigate to https://google.com") }] ∧
    processCommand (strL "go to intranet") =
      [{ actionType := ActionType.navigate, target := some (strL "https://www.intranet"),
         value := none,
         description := some (strL "Navigate to https://www.intranet") }] := by
  exact ⟨by decide, by decide⟩

theorem processGo_length_le : ∀ (fs : List Str) (acc : List AutomationAction),
    (processGo fs acc).length ≤ acc.length + fs.length := by
  intro fs
  induction fs with
  | nil => intro acc; simp [processGo]
  | cons f fs ih =>
    intro acc
    unfold processGo
    cases h : fragStep f acc with
    | none =>
      calc (processGo fs acc).length ≤ acc.length + fs.length := ih acc
        _ ≤ acc.length + (f :: fs).length := by simp
    | some a =>
      calc (processGo fs (acc ++ [a])).length ≤ (acc ++ [a]).length + fs.length := ih _
        _ ≤ acc.length + (f :: fs).length := by
          simp only [List.length_append, List.length_cons, List.length_nil]
          omega

theorem processGo_decomp : ∀ (fs : List Str) (acc : List AutomationAction),
    ∃ t, processGo fs acc = acc ++ t := by
  intro fs
  induction fs with
  | nil => intro acc; exact ⟨[], by simp [processGo]⟩
  | cons f fs ih =>
    intro acc
    unfold processGo
    cases h : fragStep f acc with
    | none => exact ih acc
    | some a =>
      obtain ⟨t, ht⟩ := ih (acc ++ [a])
      refine ⟨a :: t, ?_⟩
      show processGo fs (acc ++ [a]) = acc ++ a :: t
      rw [ht]
      simp

theorem processGo_nil_iff : ∀ fs : List Str,
    processGo fs [] = [] ↔ ∀ f ∈ fs, fragStep f [] = none := by
  intro fs
  induction fs with
  | nil => simp [processGo]
  | cons f fs ih =>
    constructor
    · intro h
      unfold processGo at h
      cases he : fragStep f [] with
      | some a =>
        obtain ⟨t, ht⟩ := processGo_decomp fs ([] ++ [a])
        rw [he] at h
        have h2 : processGo fs ([] ++ [a]) = [] := h
        rw [ht] at h2
        simp at h2
      | none =>
        rw [he] at h
        have h2 : processGo fs [] = [] := h
        intro g hg
        rcases List.mem_cons.mp hg with hg' | hg'
        · rw [hg']; exact he
        · exact (ih.mp h2) g hg'
    · intro h
      unfold processGo
      have he : fragStep f [] = none := h f (List.mem_cons_self f fs)
      rw [he]
      show processGo fs [] = []
      exact ih.mpr (fun g hg => h g (List.mem_cons_of_mem f hg))

/-- C6: `process_command` is a total function returning a (possibly
empty) action list: each cleaned fragment contributes at most one action,
and the result is empty exactly when no fragment yields an action through
parsing or inference — an empty list, not an error. -/
theorem C6_parser_never_raises :
    ∀ command : Str,
      (processCommand command).length ≤
        (splitCompoundCommandEnhanced (pyStrip (lowerStr command))).length ∧
      (processCommand command = [] ↔
        ∀ f ∈ splitCompoundCommandEnhanced (pyStrip (lowerStr command)),
          fragStep f [] = none) := by
  intro command
  constructor
  · have h := processGo_length_le (splitCompoundCommandEnhanced (pyStrip (lowerStr command))) []
    simpa [processCommand] using h
  · exact processGo_nil_iff _

/-- Witness for C6 at a concrete command from which nothing can be
inferred: the result is the empty action list. -/
theorem C6_parser_never_raises_witness : processCommand (strL "zxq") = [] :=
  (C6_parser_never_raises (strL "zxq")).2.mpr (by decide)

theorem reSplitGo_no_match (sep : Str → Option Nat) :
    ∀ (s acc : Str) (fuel : Nat), s.length ≤ fuel →
      (∀ i ≤ s.length, sep (List.drop i s) = none) →
      reSplitGo sep fuel acc s = [acc.reverse ++ s] := by
  intro s
  induction s with
  | nil => intro acc fuel _ _; cases fuel <;> simp [reSplitGo]
  | cons c rest ih =>
    intro acc fuel hf h
    cases fuel with
    | zero => simp at hf
    | succ f =>
      have h0 : sep (c :: rest) = none := by
        have := h 0 (by omega)
        simpa using this
      unfold reSplitGo
      rw [h0]
      show reSplitGo sep f (c :: acc) rest = [acc.reverse ++ c :: rest]
      rw [ih (c :: acc) f (by simp at hf; omega)
        (fun i hi => by
          have := h (i + 1) (by simpa using Nat.succ_le_succ hi)
          simpa using this)]
      simp

theorem reSplitGo_cons_hit (sep : Str → Option Nat) (fuel : Nat) (acc : Str) (c : Char)
    (rest : Str) (n : Nat) (h : sep (c :: rest) = some (n + 1)) :
    reSplitGo sep (fuel + 1) acc (c :: rest) =
      acc.reverse :: reSplitGo sep fuel [] (List.drop n rest) := by
  conv_lhs => unfold reSplitGo
  rw [h]

theorem reSplitGo_cons_miss (sep : Str → Option Nat) (fuel : Nat) (acc : Str) (c : Char)
    (rest : Str) (h : sep (c :: rest) = none) :
    reSplitGo sep (fuel + 1) acc (c :: rest) = reSplitGo sep fuel (c :: acc) rest := by
  conv_lhs => unfold reSplitGo
  rw [h]

theorem reSplitGo_boundary (sep : Str → Option Nat) (M B : Str) (hM : M ≠ [])
    (h1 : sep (M ++ B) = some M.length) :
    ∀ (A acc : Str) (fuel : Nat), (A ++ M ++ B).length ≤ fuel →
      (∀ i < A.length, sep (List.drop i (A ++ M ++ B)) = none) →
      reSplitGo sep fuel acc (A ++ M ++ B) =
        (acc.reverse ++ A) :: reSplitGo sep (fuel - A.length - 1) [] B := by
  intro A
  induction A with
  | nil =>
    intro acc fuel hf _
    cases M with
    | nil => exact absurd rfl hM
    | cons m mt =>
      cases fuel with
      | zero => simp at hf
      | succ f =>
        have h1' : sep (m :: (mt ++ B)) = some (mt.length + 1) := h1
        show reSplitGo sep (f + 1) acc (m :: (mt ++ B)) = _
        rw [reSplitGo_cons_hit sep f acc m (mt ++ B) mt.length h1']
        rw [List.drop_left]
        simp
  | cons a A' ih =>
    intro acc fuel hf h
    cases fuel with
    | zero => simp at hf
    | succ f =>
      have h0 : sep (a :: (A' ++ M ++ B)) = none := by
        have := h 0 (by simp)
        simpa using this
      have hf' : (A' ++ M ++ B).length ≤ f := by
        simp only [List.cons_append, List.length_cons] at hf
        omega
      show reSplitGo sep (f + 1) acc (a :: (A' ++ M ++ B)) = _
      rw [reSplitGo_cons_miss sep f acc a (A' ++ M ++ B) h0]
      rw [ih (a :: acc) f hf'
        (fun i hi => by
          have := h (i + 1) (by simpa using Nat.succ_le_succ hi)
          simpa using this)]
      have hfuel : f - A'.length - 1 = f + 1 - (a :: A').length - 1 := by
        simp only [List.length_cons]
        omega
      rw [← hfuel]
      simp

theorem reSplit_no_match (sep : Str → Option Nat) (s : Str)
    (h : ∀ i ≤ s.length, sep (List.drop i s) = none) : reSplit sep s = [s] := by
  unfold reSplit
  rw [reSplitGo_no_match sep s [] s.length (Nat.le_refl _) h]
  simp

theorem reSplit_boundary (sep : Str → Option Nat) (A M B : Str) (hM : M ≠ [])
    (h1 : sep (M ++ B) = some M.length)
    (h2 : ∀ i < A.length, sep (List.drop i (A ++ M ++ B)) = none)
    (h3 : ∀ i ≤ B.length, sep (List.drop i B) = none) :
    reSplit sep (A ++ M ++ B) = [A, B] := by
  unfold reSplit
  rw [reSplitGo_boundary sep M B hM h1 A [] (A ++ M ++ B).length (Nat.le_refl _) h2]
  rw [reSplitGo_no_match sep B [] ((A ++ M ++ B).length - A.length - 1)
    (by
      simp only [List.length_append]
      have hMl : 1 ≤ M.length := by
        cases M with
        | nil => exact absurd rfl hM
        | cons m mt => simp
      omega) h3]
  simp

theorem splitStages_pair :
    ∀ (seps : List RE) (A B : Str),
      (∀ re ∈ seps, reSplit (sepMatch re) A = [A] ∧ reSplit (sepMatch re) B = [B]) →
      seps.foldl (fun cmds sep => cmds.flatMap (fun c => reSplit (sepMatch sep) c))
          [A, B] = [A, B] := by
  intro seps
  induction seps with
  | nil => intro A B _; rfl
  | cons s rest ih =>
    intro A B h
    have hs := h s (List.mem_cons_self s rest)
    show List.foldl _ (([A, B].flatMap (fun c => reSplit (sepMatch s) c))) rest = [A, B]
    have hstep : [A, B].flatMap (fun c => reSplit (sepMatch s) c) = [A, B] := by
      simp [List.flatMap_cons, hs.1, hs.2]
    rw [hstep]
    exact ih A B (fun re hre => h re (List.mem_cons_of_mem s hre))

theorem pyStripL_eq_self_of_pyStrip (A : Str) (hA : pyStrip A = A) : pyStripL A = A := by
  have h2 : (pyStrip A).length ≤ (pyStripL A).length := by
    unfold pyStrip
    calc (((pyStripL A).reverse.dropWhile pyIsSpace).reverse).length
        = ((pyStripL A).reverse.dropWhile pyIsSpace).length := List.length_reverse _
      _ ≤ (pyStripL A).reverse.length := (List.dropWhile_sublist pyIsSpace).length_le
      _ = (pyStripL A).length := List.length_reverse _
  have h3 : A.length ≤ (pyStripL A).length := by rw [hA] at h2; exact h2
  exact (List.dropWhile_sublist pyIsSpace).eq_of_length_le h3

theorem head_not_space_of_pyStripL (c : Char) (A : Str)
    (h : pyStripL (c :: A) = c :: A) : pyIsSpace c = false := by
  cases hc : pyIsSpace c with
  | false => rfl
  | true =>
    exfalso
    have h1 : pyStripL (c :: A) = List.dropWhile pyIsSpace A := by
      simp [pyStripL, List.dropWhile_cons, hc]
    rw [h1] at h
    have hle : (List.dropWhile pyIsSpace A).length ≤ A.length :=
      (List.dropWhile_sublist pyIsSpace).length_le
    have := congrArg List.length h
    simp at this
    omega

theorem pyStripL_append_of_ne (A X : Str) (hA : pyStripL A = A) (hne : A ≠ []) :
    pyStripL (A ++ X) = A ++ X := by
  cases A with
  | nil => exact absurd rfl hne
  | cons c A' =>
    have hc := head_not_space_of_pyStripL c A' hA
    show List.dropWhile pyIsSpace (c :: (A' ++ X)) = _
    simp [List.dropWhile_cons, hc]

theorem pyStrip_append (A X : Str) (hA : pyStripL A = A) (hAne : A ≠ [])
    (hX : pyStripL X.reverse = X.reverse) (hXne : X ≠ []) :
    pyStrip (A ++ X) = A ++ X := by
  unfold pyStrip
  rw [show pyStripL (A ++ X) = A ++ X from pyStripL_append_of_ne A X hA hAne]
  rw [List.reverse_append]
  rw [show List.dropWhile pyIsSpace (X.reverse ++ A.reverse) = X.reverse ++ A.reverse from
    pyStripL_append_of_ne X.reverse A.reverse hX (by simpa using hXne)]
  rw [← List.reverse_append, List.reverse_reverse]

theorem stripAndEnds_left (A : Str) (hA : pyStrip A = A) (hAne : A ≠ [])
    (hpre : (strL "and ").isPrefixOf (A ++ strL " and") = false) :
    stripAndEnds (A ++ strL " and") = A := by
  unfold stripAndEnds
  rw [pyStrip_append A (strL " and") (pyStripL_eq_self_of_pyStrip A hA) hAne
    (by decide) (by decide)]
  dsimp only
  rw [hpre]
  simp only [Bool.false_eq_true, if_false]
  have hne3 : ((A ++ strL " and") == strL "and") = false := by
    rw [beq_eq_false_iff_ne]
    intro h
    have := congrArg List.length h
    simp [strL] at this
  rw [hne3]
  simp only [Bool.false_eq_true, if_false]
  have hsuf : (strL " and").isSuffixOf (A ++ strL " and") = true := by
    rw [List.isSuffixOf_iff_suffix]
    exact List.suffix_append A (strL " and")
  rw [hsuf]
  simp only [eq_self_iff_true, if_true]
  have hlen : (A ++ strL " and").length - 4 = A.length := by
    simp [strL]
  rw [hlen]
  rw [show (A ++ strL " and").take A.length = A from List.take_left A (strL " and")]
  exact hA

theorem stripAndEnds_self (B : Str) (hB : pyStrip B = B)
    (hBpre : (strL "and ").isPrefixOf B = false)
    (hBsuf : (strL " and").isSuffixOf B = false)
    (hBand : B ≠ strL "and") :
    stripAndEnds B = B := by
  unfold stripAndEnds
  rw [hB]
  dsimp only
  have hb : (B == strL "and") = false := by rw [beq_eq_false_iff_ne]; exact hBand
  rw [hBpre]
  simp only [Bool.false_eq_true, if_false]
  rw [hb]
  simp only [Bool.false_eq_true, if_false]
  rw [hBsuf]
  simp only [Bool.false_eq_true, if_false]
  rw [hb]
  simp only [Bool.false_eq_true, if_false]
  exact hB

/-- C8 counterexample: the enhanced splitter also splits on the other
separators (here the semicolon), so on a command containing
`"and then"` it does not in general agree with splitting on `then`
alone with the surrounding `and` stripped. -/
theorem C8_split_counterexample :
    containsSub (strL "and then") (strL "go to a.com and then click x; wait 9") = true ∧
      splitCompoundCommandEnhanced (strL "go to a.com and then click x; wait 9") ≠
        specSplitOnThenStripAnd (strL "go to a.com and then click x; wait 9") := by
  decide

/-- C8 amended: for a command `A ++ " and then " ++ B` whose only
separator occurrence is that single well-formed `" and then "` — no
separator pattern matches inside `A`, inside `B`, or elsewhere in the
command, the fragments are trimmed, long enough and free of a leading or
surrounding `and` word — the enhanced splitting produces `[A, B]`, and so
does splitting on `then` alone with the surrounding `and` stripped. -/
theorem C8_split_amended :
    ∀ A B : Str,
      pyStrip A = A → pyStrip B = B →
      2 < A.length → 2 < B.length →
      (strL "and ").isPrefixOf (A ++ strL " and") = false →
      (strL "and ").isPrefixOf B = false →
      (strL " and").isSuffixOf B = false →
      B ≠ strL "and" →
      sepMatch sepAndThenRE (strL " and then " ++ B) = some 10 →
      (∀ i < A.length,
        sepMatch sepAndThenRE (List.drop i (A ++ strL " and then " ++ B)) = none) →
      (∀ i ≤ B.length, sepMatch sepAndThenRE (List.drop i B) = none) →
      (∀ re ∈ separators.tail,
        reSplit (sepMatch re) A = [A] ∧ reSplit (sepMatch re) B = [B]) →
      (∀ i < A.length + 4,
        sepMatch sepThenRE (List.drop i (A ++ strL " and then " ++ B)) = none) →
      sepMatch sepThenRE (strL " then " ++ B) = some 6 →
      (∀ i ≤ B.length, sepMatch sepThenRE (List.drop i B) = none) →
      splitCompoundCommandEnhanced (A ++ strL " and then " ++ B) = [A, B] ∧
        specSplitOnThenStripAnd (A ++ strL " and then " ++ B) = [A, B] := by
  intro A B hA hB hlA hlB hpre hBpre hBsuf hBand h1 h2 h3 h4 h5 h6 h7
  have hAne : A ≠ [] := by
    intro h
    rw [h] at hlA
    simp at hlA
  constructor
  · unfold splitCompoundCommandEnhanced
    dsimp only
    have hstep1 : reSplit (sepMatch sepAndThenRE) (A ++ strL " and then " ++ B) =
        [A, B] :=
      reSplit_boundary (sepMatch sepAndThenRE) A (strL " and then ") B (by decide) h1 h2 h3
    have hfold : separators.foldl
        (fun cmds sep => cmds.flatMap (fun c => reSplit (sepMatch sep) c))
        [A ++ strL " and then " ++ B] = [A, B] := by
      rw [show separators = sepAndThenRE :: separators.tail from rfl]
      rw [List.foldl_cons]
      rw [show [A ++ strL " and then " ++ B].flatMap
          (fun c => reSplit (sepMatch sepAndThenRE) c) = [A, B] from by
        simpa using hstep1]
      exact splitStages_pair separators.tail A B h4
    rw [hfold]
    simp [List.filter_cons, hA, hB, hlA, hlB]
  · unfold specSplitOnThenStripAnd
    have hshape : A ++ strL " and then " ++ B = (A ++ strL " and") ++ strL " then " ++ B := by
      rw [show strL " and then " = strL " and" ++ strL " then " from rfl]
      simp [List.append_assoc]
    have h5' : ∀ i < (A ++ strL " and").length,
        sepMatch sepThenRE
          (List.drop i ((A ++ strL " and") ++ strL " then " ++ B)) = none := by
      intro i hi
      rw [← hshape]
      exact h5 i (by simpa [strL] using hi)
    have hsplit : reSplit (sepMatch sepThenRE) (A ++ strL " and then " ++ B) =
        [A ++ strL " and", B] := by
      rw [hshape]
      exact reSplit_boundary (sepMatch sepThenRE) (A ++ strL " and") (strL " then ") B
        (by decide) h6 h5' h7
    rw [hsplit]
    simp only [List.map_cons, List.map_nil]
    rw [stripAndEnds_left A hA hAne hpre, stripAndEnds_self B hB hBpre hBsuf hBand]
    simp [List.filter_cons, hA, hB, hlA, hlB]

/-- Witness for C8 at the concrete command
`"go to a.com and then click the button"`: both splittings produce the
fragments `"go to a.com"` and `"click the button"`. -/
theorem C8_split_amended_witness :
    splitCompoundCommandEnhanced (strL "go to a.com and then click the button") =
        [strL "go to a.com", strL "click the button"] ∧
      specSplitOnThenStripAnd (strL "go to a.com and then click the button") =
        [strL "go to a.com", strL "click the button"] :=
  C8_split_amended (strL "go to a.com") (strL "click the button")
    (by decide) (by decide) (by decide) (by decide) (by decide) (by decide)
    (by decide) (by decide) (by decide) (by decide) (by decide) (by decide)
    (by decide) (by decide) (by decide)

/-! ## Uppercase-freedom lemmas for C10 -/

theorem toNat_ofNat_valid (n : Nat) (h : n.isValidChar) : (Char.ofNat n).toNat = n := by
  simp [Char.ofNat, h, Char.ofNatAux, Char.toNat]
  rfl

theorem isUpper_toLower (c : Char) : (Char.toLower c).isUpper = false := by
  have hdef : Char.toLower c =
      if 65 ≤ c.toNat ∧ c.toNat ≤ 90 then Char.ofNat (c.toNat + 32) else c := rfl
  rw [hdef]
  by_cases h : 65 ≤ c.toNat ∧ c.toNat ≤ 90
  · rw [if_pos h]
    have hv : (c.toNat + 32).isValidChar := Or.inl (by omega)
    have ht := toNat_ofNat_valid (c.toNat + 32) hv
    have h2 : decide ((Char.ofNat (c.toNat + 32)).val ≤ (90 : UInt32)) = false := by
      apply decide_eq_false
      intro hle
      have h3 : (Char.ofNat (c.toNat + 32)).toNat ≤ 90 := hle
      omega
    show (decide ((Char.ofNat (c.toNat + 32)).val ≥ 65) &&
      decide ((Char.ofNat (c.toNat + 32)).val ≤ 90)) = false
    rw [h2, Bool.and_false]
  · rw [if_neg h]
    show (decide (c.val ≥ 65) && decide (c.val ≤ 90)) = false
    rcases Nat.lt_or_ge c.toNat 65 with hlt | hge
    · have h2 : decide (c.val ≥ (65 : UInt32)) = false := by
        apply decide_eq_false
        intro hle
        have h3 : 65 ≤ c.toNat := hle
        omega
      rw [h2, Bool.false_and]
    · have h90 : ¬ c.toNat ≤ 90 := fun hle => h ⟨hge, hle⟩
      have h2 : decide (c.val ≤ (90 : UInt32)) = false := by
        apply decide_eq_false
        intro hle
        exact h90 hle
      rw [h2, Bool.and_false]

theorem UFP_lowerStr (s : Str) : UFP (lowerStr s) := by
  intro c hc
  rcases List.mem_map.mp hc with ⟨d, _, rfl⟩
  exact isUpper_toLower d

theorem UFP_of_subset {s t : Str} (h : t ⊆ s) (hs : UFP s) : UFP t :=
  fun c hc => hs c (h hc)

theorem UFP_append {a b : Str} (ha : UFP a) (hb : UFP b) : UFP (a ++ b) := by
  intro c hc
  rcases List.mem_append.mp hc with h | h
  · exact ha c h
  · exact hb c h

theorem UFP_reverse {s : Str} (hs : UFP s) : UFP s.reverse :=
  fun c hc => hs c (List.mem_reverse.mp hc)

theorem UFP_pyStripL {s : Str} (hs : UFP s) : UFP (pyStripL s) :=
  UFP_of_subset (List.dropWhile_subset pyIsSpace) hs

theorem UFP_pyStrip {s : Str} (hs : UFP s) : UFP (pyStrip s) :=
  UFP_reverse (UFP_of_subset (List.dropWhile_subset pyIsSpace)
    (UFP_reverse (UFP_pyStripL hs)))

theorem UFP_take {s : Str} (n : Nat) (hs : UFP s) : UFP (s.take n) :=
  UFP_of_subset (List.take_subset n s) hs

theorem UFP_drop {s : Str} (n : Nat) (hs : UFP s) : UFP (s.drop n) :=
  UFP_of_subset (List.drop_subset n s) hs

theorem digitChar_not_upper : ∀ d, d < 10 → (digitChar d).isUpper = false := by
  decide

theorem UFP_natStrGo : ∀ (fuel n : Nat), UFP (natStrGo fuel n) := by
  intro fuel
  induction fuel with
  | zero => intro n c hc; simp [natStrGo] at hc
  | succ f ih =>
    intro n
    unfold natStrGo
    by_cases h : n < 10
    · rw [if_pos h]
      intro c hc
      rcases List.mem_singleton.mp hc with rfl
      exact digitChar_not_upper n h
    · rw [if_neg h]
      apply UFP_append (ih (n / 10))
      intro c hc
      rcases List.mem_singleton.mp hc with rfl
      exact digitChar_not_upper (n % 10) (Nat.mod_lt n (by omega))

theorem UFP_natStr (n : Nat) : UFP (natStr n) := UFP_natStrGo (n + 1) n

theorem UFP_joinSpace : ∀ ws : List Str, (∀ w ∈ ws, UFP w) → UFP (joinSpace ws) := by
  intro ws
  induction ws with
  | nil => intro _ c hc; simp [joinSpace] at hc
  | cons w rest ih =>
    intro h
    cases rest with
    | nil =>
      show UFP w
      exact h w (List.mem_cons_self w [])
    | cons w2 rest2 =>
      show UFP (w ++ ' ' :: joinSpace (w2 :: rest2))
      apply UFP_append (h w (List.mem_cons_self w _))
      intro c hc
      rcases List.mem_cons.mp hc with rfl | hc'
      · decide
      · exact ih (fun g hg => h g (List.mem_cons_of_mem w hg)) c hc'

theorem reSplitGo_chars (sep : Str → Option Nat) :
    ∀ (fuel : Nat) (acc s frag : Str), frag ∈ reSplitGo sep fuel acc s →
      ∀ c ∈ frag, c ∈ acc ∨ c ∈ s := by
  intro fuel
  induction fuel with
  | zero =>
    intro acc s frag hf c hc
    cases s with
    | nil =>
      rcases List.mem_singleton.mp hf with rfl
      exact Or.inl (List.mem_reverse.mp hc)
    | cons x rest =>
      rcases List.mem_singleton.mp hf with rfl
      rcases List.mem_append.mp hc with h | h
      · exact Or.inl (List.mem_reverse.mp h)
      · exact Or.inr h
  | succ f ih =>
    intro acc s frag hf c hc
    cases s with
    | nil =>
      rcases List.mem_singleton.mp hf with rfl
      exact Or.inl (List.mem_reverse.mp hc)
    | cons x rest =>
      rw [show reSplitGo sep (f + 1) acc (x :: rest) =
          (match sep (x :: rest) with
           | some (n + 1) => acc.reverse :: reSplitGo sep f [] (List.drop n rest)
           | _ => reSplitGo sep f (x :: acc) rest) from by
        conv_lhs => unfold reSplitGo] at hf
      cases hm : sep (x :: rest) with
      | some n =>
        cases n with
        | zero =>
          rw [hm] at hf
          rcases ih (x :: acc) rest frag hf c hc with h | h
          · rcases List.mem_cons.mp h with rfl | h'
            · exact Or.inr (List.mem_cons_self c rest)
            · exact Or.inl h'
          · exact Or.inr (List.mem_cons_of_mem x h)
        | succ m =>
          rw [hm] at hf
          rcases List.mem_cons.mp hf with rfl | hf'
          · exact Or.inl (List.mem_reverse.mp hc)
          · rcases ih [] (List.drop m rest) frag hf' c hc with h | h
            · simp at h
            · exact Or.inr (List.mem_cons_of_mem x (List.drop_subset m rest h))
      | none =>
        rw [hm] at hf
        rcases ih (x :: acc) rest frag hf c hc with h | h
        · rcases List.mem_cons.mp h with rfl | h'
          · exact Or.inr (List.mem_cons_self c rest)
          · exact Or.inl h'
        · exact Or.inr (List.mem_cons_of_mem x h)

theorem UFP_reSplit_frag (sep : Str → Option Nat) {s frag : Str} (hs : UFP s)
    (hf : frag ∈ reSplit sep s) : UFP frag := by
  intro c hc
  rcases reSplitGo_chars sep s.length [] s frag hf c hc with h | h
  · simp at h
  · exact hs c h

theorem reMatch_GFP :
    ∀ (fuel : Nat) (re : RE) (s : Str) (gs : Groups)
      (k : Str → Groups → Option Groups) (r : Groups),
      UFP s → GFP gs →
      (∀ s1 gs1 r1, UFP s1 → GFP gs1 → k s1 gs1 = some r1 → GFP r1) →
      reMatch fuel re s gs k = some r → GFP r := by
  intro fuel
  induction fuel with
  | zero =>
    intro re s gs k r _ _ _ h
    simp [reMatch] at h
  | succ n ih =>
    intro re s gs k r hs hgs hk hm
    cases re with
    | eps => exact hk s gs r hs hgs hm
    | lit l =>
      simp only [reMatch] at hm
      by_cases hp : l.isPrefixOf s = true
      · rw [if_pos hp] at hm
        exact hk _ gs r (UFP_drop l.length hs) hgs hm
      · rw [if_neg hp] at hm
        exact absurd hm (by simp)
    | cls p =>
      simp only [reMatch] at hm
      cases s with
      | nil => exact Option.noConfusion (show (none : Option Groups) = some r from hm)
      | cons x rest =>
        have hm2 : (if p x = true then k rest gs else none) = some r := hm
        by_cases hp : p x = true
        · rw [if_pos hp] at hm2
          exact hk rest gs r
            (fun c hc => hs c (List.mem_cons_of_mem x hc)) hgs hm2
        · rw [if_neg hp] at hm2
          exact absurd hm2 (by simp)
    | seq a b =>
      simp only [reMatch] at hm
      exact ih a s gs _ r hs hgs
        (fun s1 gs1 r1 h1 h2 h3 => ih b s1 gs1 k r1 h1 h2 hk h3) hm
    | alt a b =>
      simp only [reMatch] at hm
      cases hma : reMatch n a s gs k with
      | some r2 =>
        rw [hma] at hm
        injection hm with he
        subst he
        exact ih a s gs k r2 hs hgs hk hma
      | none =>
        rw [hma] at hm
        exact ih b s gs k r hs hgs hk hm
    | star e =>
      simp only [reMatch] at hm
      cases hma : reMatch n e s gs
          (fun s1 gs1 =>
            if s1.length < s.length then reMatch n (.star e) s1 gs1 k else none) with
      | some r2 =>
        rw [hma] at hm
        injection hm with he
        subst he
        refine ih e s gs _ r2 hs hgs ?_ hma
        intro s1 gs1 r1 h1 h2 h3
        by_cases hlen : s1.length < s.length
        · rw [if_pos hlen] at h3
          exact ih (.star e) s1 gs1 k r1 h1 h2 hk h3
        · rw [if_neg hlen] at h3
          exact absurd h3 (by simp)
      | none =>
        rw [hma] at hm
        exact hk s gs r hs hgs hm
    | starL e =>
      simp only [reMatch] at hm
      cases hma : k s gs with
      | some r2 =>
        rw [hma] at hm
        injection hm with he
        subst he
        exact hk s gs r2 hs hgs hma
      | none =>
        rw [hma] at hm
        refine ih e s gs _ r hs hgs ?_ hm
        intro s1 gs1 r1 h1 h2 h3
        by_cases hlen : s1.length < s.length
        · rw [if_pos hlen] at h3
          exact ih (.starL e) s1 gs1 k r1 h1 h2 hk h3
        · rw [if_neg hlen] at h3
          exact absurd h3 (by simp)
    | opt e =>
      simp only [reMatch] at hm
      cases hma : reMatch n e s gs k with
      | some r2 =>
        rw [hma] at hm
        injection hm with he
        subst he
        exact ih e s gs k r2 hs hgs hk hma
      | none =>
        rw [hma] at hm
        exact hk s gs r hs hgs hm
    | grp i e =>
      simp only [reMatch] at hm
      refine ih e s gs _ r hs hgs ?_ hm
      intro s1 gs1 r1 h1 h2 h3
      refine hk s1 ((i, s.take (s.length - s1.length)) :: gs1) r1 h1 ?_ h3
      intro p hp
      rcases List.mem_cons.mp hp with rfl | hp'
      · exact UFP_take _ hs
      · exact h2 p hp'
    | look e =>
      simp only [reMatch] at hm
      exact ih e s gs _ r hs hgs
        (fun s1 gs1 r1 _ _ h3 => hk s gs r1 hs hgs h3) hm
    | eol =>
      simp only [reMatch] at hm
      by_cases hp : (s == [] || s == ['\n']) = true
      · rw [if_pos hp] at hm
        exact hk s gs r hs hgs hm
      · rw [if_neg hp] at hm
        exact absurd hm (by simp)

theorem reSearchGo_GFP (re : RE) (fuel : Nat) :
    ∀ (s : Str) (gs : Groups), UFP s → reSearchGo fuel re s = some gs → GFP gs := by
  intro s
  induction s with
  | nil =>
    intro gs hs hm
    exact reMatch_GFP fuel re [] [] _ gs hs (by intro p hp; simp at hp)
      (fun s1 gs1 r1 _ h2 h3 => by injection h3 with he; subst he; exact h2) hm
  | cons c t ih =>
    intro gs hs hm
    unfold reSearchGo at hm
    cases hma : reMatch fuel re (c :: t) [] (fun _ gs => some gs) with
    | some gs2 =>
      rw [hma] at hm
      injection hm with he
      subst he
      exact reMatch_GFP fuel re (c :: t) [] _ gs2 hs (by intro p hp; simp at hp)
        (fun s1 gs1 r1 _ h2 h3 => by injection h3 with he; subst he; exact h2) hma
    | none =>
      rw [hma] at hm
      exact ih gs (fun d hd => hs d (List.mem_cons_of_mem c hd)) hm

theorem reSearch_GFP {re : RE} {s : Str} {gs : Groups} (hs : UFP s)
    (hm : reSearch re s = some gs) : GFP gs :=
  reSearchGo_GFP re (matchFuel s) s gs hs hm

theorem lookupGrp_UFP {gs : Groups} (hgs : GFP gs) (i : Nat) {g : Str}
    (h : lookupGrp i gs = some g) : UFP g := by
  induction gs with
  | nil => simp [lookupGrp] at h
  | cons p rest ih =>
    unfold lookupGrp at h
    by_cases hj : (p.1 == i) = true
    · rw [if_pos hj] at h
      injection h with he
      subst he
      exact hgs p (List.mem_cons_self p rest)
    · rw [if_neg hj] at h
      exact ih (fun q hq => hgs q (List.mem_cons_of_mem p hq)) h

theorem pyGroups_OGFP {gs : Groups} (hgs : GFP gs) (n : Nat) :
    OGFP (pyGroups n gs) := by
  intro og hog g hg
  rcases List.mem_map.mp hog with ⟨i, _, rfl⟩
  exact lookupGrp_UFP hgs (i + 1) hg

theorem grpStr_UFP {groups : List (Option Str)} (h : OGFP groups) (i : Nat) :
    UFP (grpStr groups i) := by
  unfold grpStr
  cases hg : groups.getD i none with
  | none => intro c hc; simp at hc
  | some g2 =>
    show UFP g2
    have h2 : groups.get? i = some (some g2) := by
      have h3 : (groups.get? i).getD none = some g2 := hg
      cases hq : groups.get? i with
      | none => rw [hq] at h3; simp at h3
      | some og =>
        rw [hq] at h3
        simp at h3
        rw [h3]
    exact h (some g2) (List.get?_mem h2) g2 rfl

theorem upperFree_true {s : Str} (h : UFP s) : upperFree s = true := by
  unfold upperFree
  rw [List.all_eq_true]
  intro c hc
  rw [h c hc]
  rfl

theorem UFP_getD {l : List Str} (h : ∀ w ∈ l, UFP w) (i : Nat) : UFP (l.getD i []) := by
  cases hg : l.getD i [] with
  | nil => intro c hc; simp at hc
  | cons x t =>
    show UFP (x :: t)
    have h2 : l.get? i = some (x :: t) := by
      have h3 : (l.get? i).getD [] = x :: t := hg
      cases hq : l.get? i with
      | none => rw [hq] at h3; simp at h3
      | some w =>
        rw [hq] at h3
        simp at h3
        rw [h3]
    exact h (x :: t) (List.get?_mem h2)

theorem upperFree_UFP {s : Str} (h : upperFree s = true) : UFP s := by
  intro c hc
  have h2 := (List.all_eq_true.mp h) c hc
  simpa using h2

theorem UFP_normalizeUrl {u : Str} (hu : UFP u) : UFP (normalizeUrl u) := by
  unfold normalizeUrl
  split_ifs with h1 h2 h3
  · exact hu
  · exact UFP_append (upperFree_UFP (by decide)) hu
  · exact UFP_append (upperFree_UFP (by decide)) hu
  · exact hu

theorem createAction_UF (aty : ActionType) (groups : List (Option Str)) (cmd : Str)
    (hg : OGFP groups) : ActUF (createAction aty groups cmd) := by
  have h0 : UFP (pyStrip (grpStr groups 0)) := UFP_pyStrip (grpStr_UFP hg 0)
  have h1 : UFP (pyStrip (grpStr groups 1)) := UFP_pyStrip (grpStr_UFP hg 1)
  have hparts : ∀ w ∈ pySplitLit (strL " in ") (grpStr groups 0), UFP w :=
    fun w hw => UFP_reSplit_frag _ (grpStr_UFP hg 0) hw
  cases aty with
  | navigate =>
    have ht : (createAction ActionType.navigate groups cmd).target =
        some (normalizeUrl (pyStrip (grpStr groups 0))) := by simp [createAction]
    have hv : (createAction ActionType.navigate groups cmd).value = none := by
      simp [createAction]
    exact ⟨by rw [ht]; exact upperFree_true (UFP_normalizeUrl h0), by rw [hv]; rfl⟩
  | click =>
    have ht : (createAction ActionType.click groups cmd).target =
        some (pyStrip (grpStr groups 0)) := by simp [createAction]
    have hv : (createAction ActionType.click groups cmd).value = none := by
      simp [createAction]
    exact ⟨by rw [ht]; exact upperFree_true h0, by rw [hv]; rfl⟩
  | type =>
    by_cases hlen : 2 ≤ groups.length
    · have ht : (createAction ActionType.type groups cmd).target =
          some (pyStrip (grpStr groups 1)) := by simp [createAction, hlen]
      have hv : (createAction ActionType.type groups cmd).value =
          some (pyStrip (grpStr groups 0)) := by simp [createAction, hlen]
      exact ⟨by rw [ht]; exact upperFree_true h1, by rw [hv]; exact upperFree_true h0⟩
    · by_cases hp : 2 ≤ (pySplitLit (strL " in ") (grpStr groups 0)).length
      · have ht : (createAction ActionType.type groups cmd).target =
            some (pyStrip (joinSpace (pySplitLit (strL " in ") (grpStr groups 0)).tail)) := by
          simp [createAction, hlen, hp]
        have hv : (createAction ActionType.type groups cmd).value =
            some (pyStrip ((pySplitLit (strL " in ") (grpStr groups 0)).getD 0 [])) := by
          simp [createAction, hlen, hp]
        refine ⟨by rw [ht]; exact upperFree_true (UFP_pyStrip (UFP_joinSpace _
          (fun w hw => hparts w (List.mem_of_mem_tail hw)))), ?_⟩
        rw [hv]
        exact upperFree_true (UFP_pyStrip (UFP_getD hparts 0))
      · have ht : (createAction ActionType.type groups cmd).target =
            some (strL "input field") := by simp [createAction, hlen, hp]
        have hv : (createAction ActionType.type groups cmd).value =
            some (pyStrip (grpStr groups 0)) := by simp [createAction, hlen, hp]
        exact ⟨by rw [ht]; decide, by rw [hv]; exact upperFree_true h0⟩
  | wait =>
    by_cases hd : pyIsDigitStr (grpStr groups 0) = true
    · have ht : (createAction ActionType.wait groups cmd).target = none := by
        simp [createAction, hd]
      have hv : (createAction ActionType.wait groups cmd).value =
          some (natStr (digitsToNat (grpStr groups 0))) := by simp [createAction, hd]
      exact ⟨by rw [ht]; rfl, by rw [hv]; exact upperFree_true (UFP_natStr _)⟩
    · have ht : (createAction ActionType.wait groups cmd).target =
          some (pyStrip (grpStr groups 0)) := by simp [createAction, hd]
      have hv : (createAction ActionType.wait groups cmd).value = none := by
        simp [createAction, hd]
      exact ⟨by rw [ht]; exact upperFree_true h0, by rw [hv]; rfl⟩
  | search =>
    have ht : (createAction ActionType.search groups cmd).target = none := by
      simp [createAction]
    have hv : (createAction ActionType.search groups cmd).value =
        some (pyStrip (grpStr groups 0)) := by simp [createAction]
    exact ⟨by rw [ht]; rfl, by rw [hv]; exact upperFree_true h0⟩
  | login =>
    have hv : (createAction ActionType.login groups cmd).value = none := by
      simp [createAction]
    have ht : (createAction ActionType.login groups cmd).target =
        some (if (0 < groups.length && optTruthy (groups.getD 0 none)) = true
          then pyStrip (grpStr groups 0) else strL "current site") := by
      simp only [createAction]
    refine ⟨?_, by rw [hv]; rfl⟩
    rw [ht]
    show upperFree _ = true
    split_ifs
    · exact upperFree_true h0
    · decide
  | custom =>
    have ht : (createAction ActionType.custom groups cmd).target =
        some (if (0 < groups.length && optTruthy (groups.getD 0 none)) = true
          then pyStrip (grpStr groups 0) else strL "task") := by
      simp only [createAction]
    have hv : (createAction ActionType.custom groups cmd).value =
        some (if (1 < groups.length && optTruthy (groups.getD 1 none)) = true
          then pyStrip (grpStr groups 1) else strL "100%") := by
      simp only [createAction]
    constructor
    · rw [ht]
      show upperFree _ = true
      split_ifs
      · exact upperFree_true h0
      · decide
    · rw [hv]
      show upperFree _ = true
      split_ifs
      · exact upperFree_true h1
      · decide
  | scroll =>
    have hv : (createAction ActionType.scroll groups cmd).value = none := by
      simp [createAction]
    have ht : (createAction ActionType.scroll groups cmd).target =
        (if (0 < groups.length && optTruthy (groups.getD 0 none)) = true
         then some (pyStrip (grpStr groups 0)) else none) := by
      simp only [createAction]
    refine ⟨?_, by rw [hv]; rfl⟩
    rw [ht]
    split_ifs
    · exact upperFree_true h0
    · rfl
  | screenshot =>
    have hv : (createAction ActionType.screenshot groups cmd).value = none := by
      simp [createAction]
    have ht : (createAction ActionType.screenshot groups cmd).target =
        (if (0 < groups.length && optTruthy (groups.getD 0 none)) = true
         then some (pyStrip (grpStr groups 0)) else none) := by
      simp only [createAction]
    refine ⟨?_, by rw [hv]; rfl⟩
    rw [ht]
    split_ifs
    · exact upperFree_true h0
    · rfl
  | extract =>
    have hv : (createAction ActionType.extract groups cmd).value = none := by
      simp [createAction]
    have ht : (createAction ActionType.extract groups cmd).target =
        (if (0 < groups.length && optTruthy (groups.getD 0 none)) = true
         then some (pyStrip (grpStr groups 0)) else none) := by
      simp only [createAction]
    refine ⟨?_, by rw [hv]; rfl⟩
    rw [ht]
    split_ifs
    · exact upperFree_true h0
    · rfl
  | fillForm =>
    have hv : (createAction ActionType.fillForm groups cmd).value = none := by
      simp [createAction]
    have ht : (createAction ActionType.fillForm groups cmd).target =
        (if (0 < groups.length && optTruthy (groups.getD 0 none)) = true
         then some (pyStrip (grpStr groups 0)) else none) := by
      simp only [createAction]
    refine ⟨?_, by rw [hv]; rfl⟩
    rw [ht]
    split_ifs
    · exact upperFree_true h0
    · rfl
  | download =>
    have hv : (createAction ActionType.download groups cmd).value = none := by
      simp [createAction]
    have ht : (createAction ActionType.download groups cmd).target =
        (if (0 < groups.length && optTruthy (groups.getD 0 none)) = true
         then some (pyStrip (grpStr groups 0)) else none) := by
      simp only [createAction]
    refine ⟨?_, by rw [hv]; rfl⟩
    rw [ht]
    split_ifs
    · exact upperFree_true h0
    · rfl
  | upload =>
    have hv : (createAction ActionType.upload groups cmd).value = none := by
      simp [createAction]
    have ht : (createAction ActionType.upload groups cmd).target =
        (if (0 < groups.length && optTruthy (groups.getD 0 none)) = true
         then some (pyStrip (grpStr groups 0)) else none) := by
      simp only [createAction]
    refine ⟨?_, by rw [hv]; rfl⟩
    rw [ht]
    split_ifs
    · exact upperFree_true h0
    · rfl

theorem tryPatterns_UF (aty : ActionType) (cmd : Str) (hcmd : UFP cmd) :
    ∀ (ps : List (RE × Nat)) (a : AutomationAction),
      tryPatterns aty cmd ps = some a → ActUF a := by
  intro ps
  induction ps with
  | nil => intro a h; simp [tryPatterns] at h
  | cons p rest ih =>
    obtain ⟨re, n⟩ := p
    intro a h
    unfold tryPatterns at h
    cases hm : reSearch re cmd with
    | some gs =>
      rw [hm] at h
      injection h with he
      subst he
      exact createAction_UF aty _ cmd (pyGroups_OGFP (reSearch_GFP hcmd hm) n)
    | none =>
      rw [hm] at h
      exact ih a h

theorem tryPatternTable_UF (cmd : Str) (hcmd : UFP cmd) :
    ∀ (tbl : List (ActionType × List (RE × Nat))) (a : AutomationAction),
      tryPatternTable cmd tbl = some a → ActUF a := by
  intro tbl
  induction tbl with
  | nil => intro a h; simp [tryPatternTable] at h
  | cons p rest ih =>
    obtain ⟨aty, ps⟩ := p
    intro a h
    unfold tryPatternTable at h
    cases hm : tryPatterns aty cmd ps with
    | some a2 =>
      rw [hm] at h
      injection h with he
      subst he
      exact tryPatterns_UF aty cmd hcmd ps a2 hm
    | none =>
      rw [hm] at h
      exact ih a h

theorem pySplitWs_UFP {s : Str} (hs : UFP s) : ∀ w ∈ pySplitWs s, UFP w := by
  intro w hw
  have hw2 := (List.mem_filter.mp hw).1
  exact UFP_reSplit_frag _ hs hw2

theorem inferActionFromKeywords_UF (cmd : Str) (hcmd : UFP cmd) :
    ∀ a, inferActionFromKeywords cmd = some a → ActUF a := by
  intro a h
  have hwords : ∀ w ∈ pySplitWs (lowerStr cmd), UFP w :=
    pySplitWs_UFP (UFP_lowerStr cmd)
  unfold inferActionFromKeywords at h
  dsimp only at h
  split_ifs at h with h1 h2 h3
  · injection h with he
    subst he
    exact ⟨upperFree_true hcmd, rfl⟩
  · injection h with he
    subst he
    exact ⟨upperFree_true (UFP_joinSpace _
      (fun w hw => hwords w (List.mem_of_mem_tail hw))), rfl⟩
  · injection h with he
    subst he
    exact ⟨by decide, rfl⟩
  · injection h with he
    subst he
    exact ⟨upperFree_true hcmd, rfl⟩

theorem parseSingleCommand_UF (cmd : Str) (hcmd : UFP cmd) :
    ∀ a, parseSingleCommand cmd = some a → ActUF a := by
  intro a h
  unfold parseSingleCommand at h
  cases hm : tryPatternTable cmd actionPatternTable with
  | some a2 =>
    rw [hm] at h
    injection h with he
    subst he
    exact tryPatternTable_UF cmd hcmd actionPatternTable a2 hm
  | none =>
    rw [hm] at h
    exact inferActionFromKeywords_UF cmd hcmd a h

theorem firstMatch_OGFP (cmd : Str) (hcmd : UFP cmd) :
    ∀ (ps : List (RE × Nat)) (groups : List (Option Str)),
      firstMatch cmd ps = some groups → OGFP groups := by
  intro ps
  induction ps with
  | nil => intro groups h; simp [firstMatch] at h
  | cons p rest ih =>
    obtain ⟨re, n⟩ := p
    intro groups h
    unfold firstMatch at h
    cases hm : reSearch re cmd with
    | some gs =>
      rw [hm] at h
      injection h with he
      subst he
      exact pyGroups_OGFP (reSearch_GFP hcmd hm) n
    | none =>
      rw [hm] at h
      exact ih groups h

theorem parseComplexPhrases_UF (cmd : Str) (hcmd : UFP cmd) :
    ∀ a, parseComplexPhrases cmd = some a → ActUF a := by
  intro a h
  unfold parseComplexPhrases at h
  cases hauth : firstMatch cmd authPatterns with
  | some groups =>
    rw [hauth] at h
    injection h with he
    subst he
    have hog := firstMatch_OGFP cmd hcmd authPatterns groups hauth
    constructor
    · show upperFree (pyStrip (grpStr groups 0) ++ strL " login") = true
      exact upperFree_true (UFP_append (UFP_pyStrip (grpStr_UFP hog 0))
        (upperFree_UFP (by decide)))
    · exact upperFree_true (UFP_pyStrip (grpStr_UFP hog 1))
  | none =>
    rw [hauth] at h
    cases hfind : firstMatch cmd findPatterns with
    | some groups =>
      rw [hfind] at h
      injection h with he
      subst he
      have hog := firstMatch_OGFP cmd hcmd findPatterns groups hfind
      exact ⟨upperFree_true (UFP_pyStrip (grpStr_UFP hog 0)), rfl⟩
    | none =>
      rw [hfind] at h
      cases hcomp : firstMatch cmd completionPatterns with
      | some groups =>
        rw [hcomp] at h
        injection h with he
        subst he
        have hog := firstMatch_OGFP cmd hcmd completionPatterns groups hcomp
        constructor
        · exact upperFree_true (UFP_pyStrip (grpStr_UFP hog 0))
        · show upperFree _ = true
          split_ifs
          · exact upperFree_true (grpStr_UFP hog 1)
          · decide
      | none =>
        rw [hcomp] at h
        exact absurd h (by simp)

theorem parseSingleCommandEnhanced_UF (cmd : Str) (hcmd : UFP cmd) :
    ∀ a, parseSingleCommandEnhanced cmd = some a → ActUF a := by
  intro a h
  unfold parseSingleCommandEnhanced at h
  cases hm : parseSingleCommand cmd with
  | some a2 =>
    rw [hm] at h
    injection h with he
    subst he
    exact parseSingleCommand_UF cmd hcmd a2 hm
  | none =>
    rw [hm] at h
    exact parseComplexPhrases_UF cmd hcmd a h

theorem inferComplexRest_UF (cmd : Str) (hcmd : UFP cmd) :
    ∀ a, inferComplexRest cmd = some a → ActUF a := by
  intro a h
  unfold inferComplexRest at h
  split_ifs at h
  · injection h with he
    subst he
    exact ⟨by decide, rfl⟩
  · injection h with he
    subst he
    exact ⟨upperFree_true hcmd, rfl⟩

theorem inferComplexAction_UF (cmd : Str) (hcmd : UFP cmd)
    (prev : List AutomationAction) :
    ∀ a, inferComplexAction cmd prev = some a → ActUF a := by
  intro a h
  unfold inferComplexAction at h
  cases hl : prev.getLast? with
  | none =>
    rw [hl] at h
    exact inferComplexRest_UF cmd hcmd a h
  | some lastA =>
    rw [hl] at h
    dsimp only at h
    by_cases hnav : lastA.actionType = ActionType.navigate
    · rw [if_pos hnav] at h
      cases hf : interactionKeywords.find? (fun kw => containsSub (strL kw) cmd) with
      | some kw =>
        rw [hf] at h
        injection h with he
        subst he
        have hall : ∀ k ∈ interactionKeywords, upperFree (strL k) = true := by decide
        exact ⟨hall kw (List.mem_of_find?_eq_some hf), rfl⟩
      | none =>
        rw [hf] at h
        exact inferComplexRest_UF cmd hcmd a h
    · rw [if_neg hnav] at h
      exact inferComplexRest_UF cmd hcmd a h

theorem fragStep_UF (frag : Str) (hfrag : UFP frag) (prev : List AutomationAction) :
    ∀ a, fragStep frag prev = some a → ActUF a := by
  intro a h
  unfold fragStep at h
  have hstrip : UFP (pyStrip frag) := UFP_pyStrip hfrag
  dsimp only at h
  split_ifs at h with hemp
  cases hm : parseSingleCommandEnhanced (pyStrip frag) with
  | some a2 =>
    rw [hm] at h
    injection h with he
    subst he
    exact parseSingleCommandEnhanced_UF _ hstrip a2 hm
  | none =>
    rw [hm] at h
    exact inferComplexAction_UF _ hstrip prev a h

theorem splitStages_UFP :
    ∀ (seps : List RE) (cmds : List Str), (∀ s ∈ cmds, UFP s) →
      ∀ frag ∈ List.foldl
        (fun cmds sep => cmds.flatMap (fun c => reSplit (sepMatch sep) c)) cmds seps,
        UFP frag := by
  intro seps
  induction seps with
  | nil => intro cmds h frag hf; exact h frag hf
  | cons s rest ih =>
    intro cmds h frag hf
    rw [List.foldl_cons] at hf
    refine ih _ ?_ frag hf
    intro t ht
    rcases List.mem_flatMap.mp ht with ⟨c, hc, ht2⟩
    exact UFP_reSplit_frag _ (h c hc) ht2

theorem splitCompound_UFP (cmd : Str) (hcmd : UFP cmd) :
    ∀ frag ∈ splitCompoundCommandEnhanced cmd, UFP frag := by
  intro frag hf
  unfold splitCompoundCommandEnhanced at hf
  have hf2 := (List.mem_filter.mp hf).1
  rcases List.mem_map.mp hf2 with ⟨g, hg, rfl⟩
  exact UFP_pyStrip (splitStages_UFP separators [cmd]
    (fun s hs => by rcases List.mem_singleton.mp hs with rfl; exact hcmd) g hg)

theorem processGo_UF :
    ∀ (fs : List Str) (acc : List AutomationAction),
      (∀ f ∈ fs, UFP f) → (∀ a ∈ acc, ActUF a) →
      ∀ a ∈ processGo fs acc, ActUF a := by
  intro fs
  induction fs with
  | nil => intro acc _ hacc a ha; exact hacc a ha
  | cons f rest ih =>
    intro acc hfs hacc a ha
    unfold processGo at ha
    cases hm : fragStep f acc with
    | some a2 =>
      rw [hm] at ha
      refine ih (acc ++ [a2]) (fun g hg => hfs g (List.mem_cons_of_mem f hg)) ?_ a ha
      intro b hb
      rcases List.mem_append.mp hb with hb' | hb'
      · exact hacc b hb'
      · rcases List.mem_singleton.mp hb' with rfl
        exact fragStep_UF f (hfs f (List.mem_cons_self f rest)) acc b hm
    | none =>
      rw [hm] at ha
      exact ih acc (fun g hg => hfs g (List.mem_cons_of_mem f hg)) hacc a ha

/-- C10: `process_command` lowercases the whole input before splitting and
classification, so every returned action has target and value strings free
of uppercase letters; in particular a Type action value loses the original
casing of the quoted text. -/
theorem C10_parser_lowercases :
    ∀ (command : Str) (a : AutomationAction), a ∈ processCommand command →
      upperFreeOpt a.target = true ∧ upperFreeOpt a.value = true := by
  intro command a ha
  have hfrags := splitCompound_UFP (pyStrip (lowerStr command))
    (UFP_pyStrip (UFP_lowerStr command))
  exact processGo_UF _ [] hfrags (fun b hb => by simp at hb) a ha

/-- Witness for C10: the quoted text of
`"write Hello World into the box"` is returned in lowercase. -/
theorem C10_parser_lowercases_witness :
    upperFreeOpt (((processCommand (strL "write Hello World into the box")).getD 0
        { actionType := ActionType.click }).target) = true ∧
      upperFreeOpt (((processCommand (strL "write Hello World into the box")).getD 0
        { actionType := ActionType.click }).value) = true :=
  C10_parser_lowercases (strL "write Hello World into the box")
    ((processCommand (strL "write Hello World into the box")).getD 0
      { actionType := ActionType.click }) (by decide)
